import Mathlib

/-!
# SCD4x sensor driver and SCD41 application: a shallow embedding

The definitions below follow `src/scd4x.h`, `src/scd4x.c` and `src/main.c`.

* Machine integers are `Nat`/`Int`; every store into a fixed-width C object is an
  explicit wrap (`u8`, `u16`, `i16`).
* Pointers to buffers are functions `Nat → Nat` (offset from the pointer to the byte
  stored there); a pointer that may be `NULL` is an `Option`.
* The Flipper I2C HAL is an abstract state machine `Hal σ`; the driver threads a
  `World σ` holding the bus state and the trace of HAL calls made so far.
* A bounded `for` loop is a structural recursion on the number of iterations left,
  carrying the loop variables.
-/

namespace Scd4x

/-! ## Fixed-width stores -/

/-- Store into a `uint8_t`. -/
def u8 (x : Nat) : Nat := x % 256

/-- Store into a `uint16_t`. -/
def u16 (x : Nat) : Nat := x % 65536

/-- Narrowing cast to `int16_t` (two's complement wrap). -/
def i16 (x : Int) : Int := (x + 32768) % 65536 - 32768

/-! ## `scd4x.h` -/

/-- The enum `Scd4xStatus`. -/
inductive Scd4xStatus where
  | Ok
  | Error
  | I2c
  | Crc
  | NotReady
deriving DecidableEq, Repr

/-- The enumerator values of `Scd4xStatus`. -/
def Scd4xStatus.toInt : Scd4xStatus → Int
  | .Ok => 0
  | .Error => -1
  | .I2c => -2
  | .Crc => -3
  | .NotReady => -4

/-- The struct `Scd4xReading`. -/
structure Scd4xReading where
  co2_ppm : Nat
  temp_c_x100 : Int
  rh_x100 : Int
deriving DecidableEq, Repr

/-! ## The I2C HAL as an abstract bus -/

/-- One HAL call, with its arguments and its boolean result. -/
inductive BusEvent where
  | acquire
  | release
  | is_device_ready (addr timeout : Nat) (ok : Bool)
  | tx (addr : Nat) (data : List Nat) (timeout : Nat) (ok : Bool)
  | rx (addr len timeout : Nat) (ok : Bool)
  | delay_ms (ms : Nat)
deriving DecidableEq, Repr

/-- An abstract bus: how each HAL call answers and how it changes the bus state. -/
structure Hal (σ : Type) where
  acquire : σ → σ
  release : σ → σ
  is_device_ready : Nat → Nat → σ → Bool × σ
  tx : Nat → List Nat → Nat → σ → Bool × σ
  rx : Nat → Nat → Nat → σ → Bool × List Nat × σ
  delay_ms : Nat → σ → σ

/-- Bus state together with the trace of HAL calls issued so far (oldest first). -/
structure World (σ : Type) where
  bus : σ
  trace : List BusEvent

variable {σ : Type}

def furi_hal_i2c_acquire (hal : Hal σ) (w : World σ) : World σ :=
  { bus := hal.acquire w.bus, trace := w.trace ++ [BusEvent.acquire] }

def furi_hal_i2c_release (hal : Hal σ) (w : World σ) : World σ :=
  { bus := hal.release w.bus, trace := w.trace ++ [BusEvent.release] }

def furi_delay_ms (hal : Hal σ) (ms : Nat) (w : World σ) : World σ :=
  { bus := hal.delay_ms ms w.bus, trace := w.trace ++ [BusEvent.delay_ms ms] }

def furi_hal_i2c_is_device_ready (hal : Hal σ) (addr timeout : Nat) (w : World σ) :
    Bool × World σ :=
  ((hal.is_device_ready addr timeout w.bus).1,
   { bus := (hal.is_device_ready addr timeout w.bus).2,
     trace := w.trace ++ [BusEvent.is_device_ready addr timeout
       (hal.is_device_ready addr timeout w.bus).1] })

def furi_hal_i2c_tx (hal : Hal σ) (addr : Nat) (data : List Nat) (timeout : Nat)
    (w : World σ) : Bool × World σ :=
  ((hal.tx addr data timeout w.bus).1,
   { bus := (hal.tx addr data timeout w.bus).2,
     trace := w.trace ++ [BusEvent.tx addr data timeout (hal.tx addr data timeout w.bus).1] })

/-- The bytes the bus delivered are stored into the first `len` cells of `buf`
(each as a `uint8_t`); a cell the bus did not deliver keeps its content. -/
def rx_store (buf : Nat → Nat) (len : Nat) (bytes : List Nat) : Nat → Nat :=
  fun i => if i < len then (match bytes.get? i with
    | some b => u8 b
    | none => buf i) else buf i

def furi_hal_i2c_rx (hal : Hal σ) (addr : Nat) (buf : Nat → Nat) (len timeout : Nat)
    (w : World σ) : Bool × (Nat → Nat) × World σ :=
  ((hal.rx addr len timeout w.bus).1,
   rx_store buf len (hal.rx addr len timeout w.bus).2.1,
   { bus := (hal.rx addr len timeout w.bus).2.2,
     trace := w.trace ++ [BusEvent.rx addr len timeout (hal.rx addr len timeout w.bus).1] })

/-! ## `scd4x.c` -/

def SCD4X_ADDR : Nat := 0x62 <<< 1

def CMD_START_PERIODIC_MEASUREMENT : Nat := 0x21B1
def CMD_STOP_PERIODIC_MEASUREMENT : Nat := 0x3F86
def CMD_READ_MEASUREMENT : Nat := 0xEC05
def CMD_GET_DATA_READY_STATUS : Nat := 0xE4B8

/-- The probe loop of `scd4x_scan`: `n` iterations left, loop variable `addr`. -/
def scd4x_scan_loop (hal : Hal σ) (addrs_cap : Nat) :
    Nat → Nat → (Nat → Nat) → Nat → World σ → (Nat → Nat) × Nat × World σ
  | 0, _, addrs, found, w => (addrs, found, w)
  | n + 1, addr, addrs, found, w =>
    let p := furi_hal_i2c_is_device_ready hal addr 20 w
    let addrs1 := if p.1 then (if found < addrs_cap then Function.update addrs found addr
      else addrs) else addrs
    let found1 := if p.1 then found + 1 else found
    scd4x_scan_loop hal addrs_cap n (u8 (addr + 1)) addrs1 found1 (furi_delay_ms hal 1 p.2)

/-- The function `scd4x_scan`. The result is the status, the memory behind `addrs`,
the object behind `out_count`, and the world. The loop `addr = 0x03; addr <= 0x77`
runs `0x77 - 0x03 + 1` times. -/
def scd4x_scan (hal : Hal σ) (addrs : Option (Nat → Nat)) (addrs_cap : Nat)
    (out_count : Option Nat) (w : World σ) :
    Scd4xStatus × Option (Nat → Nat) × Option Nat × World σ :=
  let out_count0 := out_count.map (fun _ => 0)
  match addrs, out_count0 with
  | none, _ => (Scd4xStatus.Error, addrs, out_count0, w)
  | some _, none => (Scd4xStatus.Error, addrs, out_count0, w)
  | some mem, some _ =>
    if addrs_cap = 0 then (Scd4xStatus.Error, addrs, out_count0, w)
    else
      let w1 := furi_hal_i2c_acquire hal w
      let r := scd4x_scan_loop hal addrs_cap (0x77 - 0x03 + 1) 0x03 mem 0 w1
      let w2 := furi_hal_i2c_release hal r.2.2
      (Scd4xStatus.Ok, some r.1, some r.2.1, w2)

/-- The inner loop of `scd4x_crc8`: `n` iterations left of `for(b = 0; b < 8; b++)`. -/
def scd4x_crc8_bits : Nat → Nat → Nat
  | 0, crc => crc
  | n + 1, crc =>
    scd4x_crc8_bits n (if crc &&& 0x80 ≠ 0 then u8 ((crc <<< 1) ^^^ 0x31) else u8 (crc <<< 1))

/-- The outer loop of `scd4x_crc8`: `n` iterations left, loop variable `i`. -/
def scd4x_crc8_loop (data : Nat → Nat) : Nat → Nat → Nat → Nat
  | 0, _, crc => crc
  | n + 1, i, crc => scd4x_crc8_loop data n (i + 1) (scd4x_crc8_bits 8 (u8 (crc ^^^ data i)))

def scd4x_crc8 (data : Nat → Nat) (len : Nat) : Nat :=
  scd4x_crc8_loop data len 0 0xFF

def scd4x_write_cmd (hal : Hal σ) (cmd : Nat) (w : World σ) : Scd4xStatus × World σ :=
  let buf := [u8 (cmd >>> 8), u8 (cmd &&& 0xFF)]
  let w1 := furi_hal_i2c_acquire hal w
  let t := furi_hal_i2c_tx hal SCD4X_ADDR buf 50 w1
  let w2 := furi_hal_i2c_release hal t.2
  (if t.1 then Scd4xStatus.Ok else Scd4xStatus.I2c, w2)

def scd4x_read_words (hal : Hal σ) (cmd : Nat) (rx : Nat → Nat) (rx_len : Nat)
    (w : World σ) : Scd4xStatus × (Nat → Nat) × World σ :=
  let tx := [u8 (cmd >>> 8), u8 (cmd &&& 0xFF)]
  let w1 := furi_hal_i2c_acquire hal w
  let t := furi_hal_i2c_tx hal SCD4X_ADDR tx 50 w1
  let r : Bool × (Nat → Nat) × World σ :=
    if t.1 then furi_hal_i2c_rx hal SCD4X_ADDR rx rx_len 50 (furi_delay_ms hal 2 t.2)
    else (false, rx, t.2)
  let w2 := furi_hal_i2c_release hal r.2.2
  if !t.1 || !r.1 then (Scd4xStatus.I2c, r.2.1, w2) else (Scd4xStatus.Ok, r.2.1, w2)

/-- The function `scd4x_get_data_ready`; `ready` is the object behind the pointer. -/
def scd4x_get_data_ready (hal : Hal σ) (ready : Bool) (w : World σ) :
    Scd4xStatus × Bool × World σ :=
  let r := scd4x_read_words hal CMD_GET_DATA_READY_STATUS (fun _ => 0) 3 w
  if r.1 ≠ Scd4xStatus.Ok then (r.1, ready, r.2.2)
  else if scd4x_crc8 r.2.1 2 ≠ r.2.1 2 then (Scd4xStatus.Crc, ready, r.2.2)
  else
    let status := u16 ((r.2.1 0 <<< 8) ||| r.2.1 1)
    (Scd4xStatus.Ok, (status &&& 0x07FF) != 0, r.2.2)

def scd4x_start_periodic_measurement (hal : Hal σ) (w : World σ) : Scd4xStatus × World σ :=
  let w1 := furi_delay_ms hal 30 w
  let w2 := furi_hal_i2c_acquire hal w1
  let p := furi_hal_i2c_is_device_ready hal SCD4X_ADDR 50 w2
  let w3 := furi_hal_i2c_release hal p.2
  if !p.1 then (Scd4xStatus.I2c, w3) else scd4x_write_cmd hal CMD_START_PERIODIC_MEASUREMENT w3

def scd4x_stop_periodic_measurement (hal : Hal σ) (w : World σ) : Scd4xStatus × World σ :=
  let r := scd4x_write_cmd hal CMD_STOP_PERIODIC_MEASUREMENT w
  (r.1, furi_delay_ms hal 500 r.2)

/-- The checksum loop of `scd4x_read_measurement`: `n` iterations left of
`for(i = 0; i < 9; i += 3)`; `true` when no word failed. -/
def scd4x_check_words (rx : Nat → Nat) : Nat → Nat → Bool
  | 0, _ => true
  | n + 1, i =>
    if scd4x_crc8 (fun j => rx (i + j)) 2 ≠ rx (i + 2) then false
    else scd4x_check_words rx n (i + 3)

/-- Lines 146-159 of `scd4x_read_measurement`: the three raw words and the
fixed-point conversion, stored into the fields of `*out`. The products are formed
in `int64_t`, where they cannot overflow. -/
def scd4x_decode (rx : Nat → Nat) : Scd4xReading :=
  let co2_raw := u16 ((rx 0 <<< 8) ||| rx 1)
  let t_raw := u16 ((rx 3 <<< 8) ||| rx 4)
  let rh_raw := u16 ((rx 6 <<< 8) ||| rx 7)
  let temp_c_x100 : Int := -4500 + Int.tdiv (17500 * (t_raw : Int)) 65536
  let rh_x100 : Int := Int.tdiv (10000 * (rh_raw : Int)) 65536
  { co2_ppm := co2_raw, temp_c_x100 := i16 temp_c_x100, rh_x100 := i16 rh_x100 }

/-- The function `scd4x_read_measurement`; `out` is the object behind the pointer,
`none` for `NULL`. -/
def scd4x_read_measurement (hal : Hal σ) (out : Option Scd4xReading) (w : World σ) :
    Scd4xStatus × Option Scd4xReading × World σ :=
  match out with
  | none => (Scd4xStatus.Error, none, w)
  | some o =>
    let g := scd4x_get_data_ready hal false w
    if g.1 ≠ Scd4xStatus.Ok then (g.1, some o, g.2.2)
    else if !g.2.1 then (Scd4xStatus.NotReady, some o, g.2.2)
    else
      let r := scd4x_read_words hal CMD_READ_MEASUREMENT (fun _ => 0) 9 g.2.2
      if r.1 ≠ Scd4xStatus.Ok then (r.1, some o, r.2.2)
      else if !scd4x_check_words r.2.1 3 0 then (Scd4xStatus.Crc, some o, r.2.2)
      else (Scd4xStatus.Ok, some (scd4x_decode r.2.1), r.2.2)

/-! ## `main.c` -/

def HISTORY_SIZE : Nat := 90

/-- The struct `Scd41App`, without the GUI and timer handles. -/
structure Scd41App where
  co2_ppm : Nat
  temp_c_x100 : Int
  rh_x100 : Int
  co2_history : Nat → Nat
  history_index : Nat
  history_count : Nat
  sensor_ok : Bool
  status : String

/-- Writing `fmt` through `snprintf(buf, size, ...)`: at most `size - 1` characters
are kept. -/
def snprintf (size : Nat) (text : String) : String :=
  String.mk (text.data.take (size - 1))

/-- The conversion `%d`. -/
def fmt_d (x : Int) : String := toString x

/-- One upper-case hexadecimal digit. -/
def hex_digit (d : Nat) : Char :=
  if d < 10 then Char.ofNat (48 + d) else Char.ofNat (55 + d)

/-- The conversion `%02X` of a `uint8_t` argument. -/
def fmt_02X (x : Nat) : String :=
  String.mk [hex_digit (u8 x / 16), hex_digit (u8 x % 16)]

/-- The local `Scd4xReading reading = {0}`. -/
def reading_zero : Scd4xReading := { co2_ppm := 0, temp_c_x100 := 0, rh_x100 := 0 }

/-- Lines 152-175 of `scd41_app_timer_cb`: what the callback does to the
application state once the driver has returned `st` and left `reading`. -/
def scd41_app_on_poll (st : Scd4xStatus) (reading : Scd4xReading) (app : Scd41App) :
    Scd41App :=
  if st = Scd4xStatus.Ok then
    let app1 := { app with
      sensor_ok := true
      co2_ppm := reading.co2_ppm
      temp_c_x100 := reading.temp_c_x100
      rh_x100 := reading.rh_x100
      status := "" }
    let app2 := { app1 with
      co2_history := Function.update app1.co2_history app1.history_index app1.co2_ppm }
    let app3 := { app2 with history_index := u8 ((app2.history_index + 1) % HISTORY_SIZE) }
    if app3.history_count < HISTORY_SIZE then
      { app3 with history_count := u8 (app3.history_count + 1) }
    else app3
  else if st = Scd4xStatus.NotReady then
    { app with sensor_ok := true, status := snprintf 32 "Waiting..." }
  else
    let app1 := { app with sensor_ok := false }
    if st = Scd4xStatus.I2c then
      { app1 with status := snprintf 32 "I2C error (no ACK?)" }
    else
      { app1 with status := snprintf 32 ("Sensor error (" ++ fmt_d st.toInt ++ ")") }

/-- The function `scd41_app_timer_cb`: one poll of the driver, then the update of
the application state. -/
def scd41_app_timer_cb (hal : Hal σ) (app : Scd41App) (w : World σ) :
    Scd41App × World σ :=
  let r := scd4x_read_measurement hal (some reading_zero) w
  (scd41_app_on_poll r.1 (r.2.1.getD reading_zero) app, r.2.2)

/-- Lines 197-247 of `scd41_sensor_app`: the fields set on the freshly allocated
state `mem`, then the start of the sensor and the status derived from it. -/
def scd41_app_start (hal : Hal σ) (mem : Scd41App) (w : World σ) : Scd41App × World σ :=
  let app := { mem with
    sensor_ok := false
    history_index := 0
    history_count := 0
    status := snprintf 32 "Starting..." }
  let i := scd4x_start_periodic_measurement hal w
  if i.1 ≠ Scd4xStatus.Ok then
    let app1 := { app with sensor_ok := false }
    if i.1 = Scd4xStatus.I2c then
      let s := scd4x_scan hal (some (fun _ => 0)) 8 (some 0) i.2
      let addrs := s.2.1.getD (fun _ => 0)
      let found := s.2.2.1.getD 0
      if s.1 = Scd4xStatus.Ok then
        if found = 0 then
          ({ app1 with status := snprintf 32 "I2C: none (no pullups?)" }, s.2.2.2)
        else if found = 1 then
          let text := "I2C found: 0x" ++ fmt_02X (addrs 0) ++ " (need 0x62)"
          ({ app1 with status := snprintf 32 text }, s.2.2.2)
        else
          let text := "I2C: 0x" ++ fmt_02X (addrs 0) ++ " 0x" ++ fmt_02X (addrs 1) ++
            " (need 0x62)"
          ({ app1 with status := snprintf 32 text }, s.2.2.2)
      else ({ app1 with status := snprintf 32 "No I2C device at 0x62" }, s.2.2.2)
    else
      ({ app1 with status := snprintf 32 ("Init failed (" ++ fmt_d i.1.toInt ++ ")") }, i.2)
  else
    ({ app with sensor_ok := true, status := snprintf 32 "Warming up..." }, i.2)

/-- Store of an `int` into a `uint8_t`. -/
def u8_of_int (x : Int) : Nat := (x % 256).toNat

/-- The variable `start_idx` of `scd41_draw_callback` (line 108); the right-hand
side is computed in `int`, where `%` truncates toward zero. -/
def scd41_draw_start_idx (app : Scd41App) : Nat :=
  u8_of_int (Int.tmod ((app.history_index : Int) + (HISTORY_SIZE : Int)
    - (app.history_count : Int)) (HISTORY_SIZE : Int))

/-- The values `val` read by the plot loop of `scd41_draw_callback` (lines 111-113),
in the order the loop reads them: `n` iterations left, loop variable `i`. -/
def scd41_draw_vals (app : Scd41App) (start_idx : Nat) : Nat → Nat → List Nat
  | 0, _ => []
  | n + 1, i =>
    app.co2_history (u8 ((start_idx + i) % HISTORY_SIZE)) ::
      scd41_draw_vals app start_idx n (u8 (i + 1))

/-- The samples plotted by `scd41_draw_callback`, oldest first. -/
def scd41_draw_samples (app : Scd41App) : List Nat :=
  scd41_draw_vals app (scd41_draw_start_idx app) app.history_count 0

/-! ## Buses used to run the code on concrete inputs -/

/-- A scripted bus: probes and transmits succeed, and each receive delivers the
next scripted response (it fails when the script is exhausted). -/
def script_bus : Hal (List (List Nat)) where
  acquire := fun s => s
  release := fun s => s
  is_device_ready := fun _ _ s => (true, s)
  tx := fun _ _ _ s => (true, s)
  rx := fun _ _ _ s => match s with
    | [] => (false, [], [])
    | r :: rest => (true, r, rest)
  delay_ms := fun _ s => s

/-- A bus on which the devices listed in the state answer the presence probe, and
every transmit and receive fails. -/
def probe_bus : Hal (List Nat) where
  acquire := fun s => s
  release := fun s => s
  is_device_ready := fun addr _ s => (decide (addr ∈ s), s)
  tx := fun _ _ _ s => (false, s)
  rx := fun _ _ _ s => (false, [], s)
  delay_ms := fun _ s => s

/-- A three-byte group as the sensor sends it: a big-endian word and its checksum. -/
def frame (word : Nat) : List Nat :=
  [word / 256 % 256, word % 256,
    scd4x_crc8 (fun i => [word / 256 % 256, word % 256].getD i 0) 2]

/-! ## Specification-side definitions -/

/-- Rounding a rational toward zero. -/
def trunc_toward_zero (q : ℚ) : ℤ := if 0 ≤ q then ⌊q⌋ else ⌈q⌉

/-- The big-endian 16-bit word held in cells `i`, `i + 1` of a byte buffer. -/
def raw_word (rx : Nat → Nat) (i : Nat) : Nat := 256 * rx i + rx (i + 1)

/-- The receive buffer `rx` of `scd4x_read_measurement` after the read-measurement
exchange. -/
def measurement_rx (hal : Hal σ) (w : World σ) : Nat → Nat :=
  (scd4x_read_words hal CMD_READ_MEASUREMENT (fun _ => 0) 9
    (scd4x_get_data_ready hal false w).2.2).2.1

/-- A scripted sensor that answers the data-ready query with `status` and the
read-measurement command with the three words, each with its checksum. -/
def sample_world (status co2 t rh : Nat) : World (List (List Nat)) :=
  { bus := [frame status, frame co2 ++ frame t ++ frame rh], trace := [] }

/-- One step of the reference CRC-8 on an 8-bit value: when the top bit is set,
shift left and XOR with the polynomial, else shift left. -/
def crc8_ref_step (poly c : Nat) : Nat :=
  if c / 128 % 2 = 1 then (2 * c % 256) ^^^ poly else 2 * c % 256

/-- The reference CRC-8 (no reflection, no final XOR): each byte is XORed into the
running value, followed by eight steps. -/
def crc8_reference (poly init : Nat) (bytes : List Nat) : Nat :=
  bytes.foldl (fun crc b => (crc8_ref_step poly)^[8] (crc ^^^ b)) init

/-! ## One command/response exchange, seen from the bus -/

/-- The answer of the bus to the transmit of `cmd_bytes` to the sensor, issued
right after the bus was acquired in state `s`. -/
def xchg_tx (hal : Hal σ) (cmd_bytes : List Nat) (s : σ) : Bool × σ :=
  hal.tx SCD4X_ADDR cmd_bytes 50 (hal.acquire s)

/-- The answer of the bus to the receive of `len` bytes that follows that transmit
after the 2 ms delay. -/
def xchg_rx (hal : Hal σ) (cmd_bytes : List Nat) (len : Nat) (s : σ) : Bool × List Nat × σ :=
  hal.rx SCD4X_ADDR len 50 (hal.delay_ms 2 (xchg_tx hal cmd_bytes s).2)

/-- The exchange succeeds at transport level: both transmit and receive succeed. -/
def xchg_ok (hal : Hal σ) (cmd_bytes : List Nat) (len : Nat) (s : σ) : Bool :=
  (xchg_tx hal cmd_bytes s).1 && (xchg_rx hal cmd_bytes len s).1

/-- The zero-initialised receive buffer after the bytes of the exchange are stored. -/
def xchg_buf (hal : Hal σ) (cmd_bytes : List Nat) (len : Nat) (s : σ) : Nat → Nat :=
  rx_store (fun _ => 0) len (xchg_rx hal cmd_bytes len s).2.1

/-- The bus state after a complete exchange and the release of the bus. -/
def xchg_bus (hal : Hal σ) (cmd_bytes : List Nat) (len : Nat) (s : σ) : σ :=
  hal.release (xchg_rx hal cmd_bytes len s).2.2

/-- The HAL calls of one complete, successful exchange. -/
def xchg_events (cmd_bytes : List Nat) (len : Nat) : List BusEvent :=
  [BusEvent.acquire, BusEvent.tx SCD4X_ADDR cmd_bytes 50 true, BusEvent.delay_ms 2,
    BusEvent.rx SCD4X_ADDR len 50 true, BusEvent.release]

/-- The bus state in which the read-measurement exchange starts: after the
data-ready exchange `0xE4B8`. -/
def bus_after_ready (hal : Hal σ) (s : σ) : σ :=
  xchg_bus hal [0xE4, 0xB8] 3 s

/-- The three-byte buffer `rx` of `scd4x_get_data_ready` after a data-ready
exchange started in bus state `s`. -/
def ready_buf (hal : Hal σ) (s : σ) : Nat → Nat :=
  xchg_buf hal [0xE4, 0xB8] 3 s

/-- The nine-byte buffer `rx` of `scd4x_read_measurement` after the read-measurement
exchange `0xEC05` that follows a data-ready exchange started in bus state `s`. -/
def measure_buf (hal : Hal σ) (s : σ) : Nat → Nat :=
  xchg_buf hal [0xEC, 0x05] 9 (bus_after_ready hal s)

/-- The scripted sensor of `sample_world` with the three checksum bytes of the
measurement response replaced by `c0`, `c1`, `c2`. -/
def sample_world_crc (status co2 t rh c0 c1 c2 : Nat) : World (List (List Nat)) :=
  { bus := [frame status,
      (frame co2).take 2 ++ [c0] ++ (frame t).take 2 ++ [c1] ++ (frame rh).take 2 ++ [c2]],
    trace := [] }

/-! ## The history store -/

/-- Pushing the readings `rs`, in order, through the Ok branch of the timer
callback. -/
def push_all (rs : List Scd4xReading) (app : Scd41App) : Scd41App :=
  rs.foldl (fun a r => scd41_app_on_poll Scd4xStatus.Ok r a) app

/-- The history holds the pushed values `vs`: the cursor and the count follow the
number of pushes, and each of the last 90 pushed values sits in slot `p % 90`. -/
def HistoryInv (vs : List Nat) (app : Scd41App) : Prop :=
  app.history_index = vs.length % 90 ∧ app.history_count = min vs.length 90 ∧
    ∀ p, p < vs.length → vs.length ≤ p + 90 → app.co2_history (p % 90) = vs.getD p 0

/-- An application state with everything cleared. -/
def app_zero : Scd41App :=
  { co2_ppm := 0, temp_c_x100 := 0, rh_x100 := 0, co2_history := fun _ => 0,
    history_index := 0, history_count := 0, sensor_ok := false, status := "" }

/-! ## The bus scan, seen from the bus -/

/-- The address byte the HAL takes for the 7-bit bus address `a` (the comment at
`scd4x.c:7-8`: the 7-bit address shifted left by one, as in `SCD4X_ADDR`). -/
def hal_addr (a : Nat) : Nat := a <<< 1

/-- The devices present among the 7-bit addresses `addrs`, asked in that order: those
whose presence probe at the HAL address byte `hal_addr a` (20 ms, then a 1 ms
pause) answers. -/
def present_among (hal : Hal σ) : List Nat → σ → List Nat
  | [], _ => []
  | a :: rest, s =>
    if (hal.is_device_ready (hal_addr a) 20 s).1 then
      a :: present_among hal rest (hal.delay_ms 1 (hal.is_device_ready (hal_addr a) 20 s).2)
    else present_among hal rest (hal.delay_ms 1 (hal.is_device_ready (hal_addr a) 20 s).2)

/-- The responding 7-bit addresses of the range `0x03 .. 0x77`, in ascending order,
on a bus acquired in state `s`. -/
def responding_addresses (hal : Hal σ) (s : σ) : List Nat :=
  present_among hal (List.range' 0x03 117) (hal.acquire s)

/-- The results of the presence probes of a trace, in the order they were made. -/
def probe_results : List BusEvent → List Bool
  | [] => []
  | BusEvent.is_device_ready _ _ ok :: rest => ok :: probe_results rest
  | _ :: rest => probe_results rest

/-- The 7-bit addresses `base + k` whose probe, the `k`-th of `results`, succeeded. -/
def hits_from (base : Nat) : List Bool → List Nat
  | [] => []
  | ok :: rest => if ok then base :: hits_from (base + 1) rest else hits_from (base + 1) rest

/-- The HAL calls made by one call of `scd4x_scan` with non-null `addrs` and
`out_count`. -/
def scan_emitted (hal : Hal σ) (mem : Nat → Nat) (cap cnt : Nat) (w : World σ) :
    List BusEvent :=
  (scd4x_scan hal (some mem) cap (some cnt) w).2.2.2.trace.drop w.trace.length

/-- The 7-bit addresses whose probe succeeded during one call of `scd4x_scan`: the
`k`-th probe of the scan is the one made for the address `0x03 + k`. -/
def scan_hits (hal : Hal σ) (mem : Nat → Nat) (cap cnt : Nat) (w : World σ) : List Nat :=
  hits_from 0x03 (probe_results (scan_emitted hal mem cap cnt w))

/-! ## Running the poll loop -/

/-- One firing of the timer: `scd41_app_timer_cb` on the current state and world. -/
def tick (hal : Hal σ) (aw : Scd41App × World σ) : Scd41App × World σ :=
  scd41_app_timer_cb hal aw.1 aw.2

/-- A scripted sensor that reports not-ready on five polls and then delivers
CO2 = 800, raw temperature 21000 and raw humidity 28000. -/
def warmup_world : World (List (List Nat)) :=
  { bus := [frame 0x8000, frame 0x8000, frame 0x8000, frame 0x8000, frame 0x8000,
      frame 0x8006, frame 800 ++ frame 21000 ++ frame 28000],
    trace := [] }

/-- A ramp of `n` readings with CO2 values `1000, 1001, ...`. -/
def ramp (n : Nat) : List Scd4xReading :=
  (List.range n).map (fun i => { co2_ppm := 1000 + i, temp_c_x100 := 0, rh_x100 := 0 })

/-! ## The 32-bit intermediates of the conversion -/

/-- Cast to `int32_t` (two's complement wrap). -/
def i32 (x : Int) : Int := (x + 2147483648) % 4294967296 - 2147483648

/-- The local `temp_c_x100` of `scd4x_read_measurement` (line 154) for a raw word
`t_raw`: the quotient is formed in `int64_t` and cast to `int32_t`. -/
def scd4x_temp_i32 (t_raw : Nat) : Int :=
  -4500 + i32 (Int.tdiv (17500 * (t_raw : Int)) 65536)

/-- The local `rh_x100` of `scd4x_read_measurement` (line 155) for a raw word
`rh_raw`. -/
def scd4x_rh_i32 (rh_raw : Nat) : Int :=
  i32 (Int.tdiv (10000 * (rh_raw : Int)) 65536)

/-! ## Bracketing of the HAL calls -/

/-- Where the driver stands with respect to the bus while a trace is replayed. -/
inductive BusPhase where
  | free
  | held
  | held_tx_failed
deriving DecidableEq, Repr

/-- One event of a well-bracketed trace: an acquire needs a free bus, every probe,
transmit and receive needs a held bus, a release needs a held bus, and once a
transmit has failed only a release (or a delay) may follow. -/
def bus_step : BusPhase → BusEvent → Option BusPhase
  | .free, .acquire => some .held
  | .free, .delay_ms _ => some .free
  | .free, _ => none
  | .held, .acquire => none
  | .held, .release => some .free
  | .held, .is_device_ready _ _ _ => some .held
  | .held, .tx _ _ _ ok => if ok then some .held else some .held_tx_failed
  | .held, .rx _ _ _ _ => some .held
  | .held, .delay_ms _ => some .held
  | .held_tx_failed, .release => some .free
  | .held_tx_failed, .delay_ms _ => some .held_tx_failed
  | .held_tx_failed, _ => none

/-- Replaying a list of events from a phase. -/
def bus_run : BusPhase → List BusEvent → Option BusPhase
  | p, [] => some p
  | p, e :: rest =>
    match bus_step p e with
    | none => none
    | some q => bus_run q rest

/-- A trace is well bracketed when its replay from a free bus ends with a free bus. -/
def well_bracketed (ev : List BusEvent) : Bool :=
  decide (bus_run BusPhase.free ev = some BusPhase.free)

/-- The world `w2` extends the trace of `w1` by events that lead from phase `p` to
phase `q`. -/
def Emits (w1 w2 : World σ) (p q : BusPhase) : Prop :=
  ∃ ev, w2.trace = w1.trace ++ ev ∧ bus_run p ev = some q

/-! ## `scd41_draw_callback` -/

def GRAPH_WIDTH : Nat := 90
def GRAPH_HEIGHT : Nat := 40
def GRAPH_X : Nat := 36
def GRAPH_Y : Nat := 22

/-- Store of an `int` into a `uint16_t`. -/
def u16_of_int (x : Int) : Nat := (x % 65536).toNat

/-- The local `temp_f_x100` of `scd41_draw_callback` (line 67), computed in `int`
from the `int16_t` field; for an `int16_t` operand nothing overflows. -/
def scd41_draw_temp_f_x100 (app : Scd41App) : Int :=
  Int.tdiv (app.temp_c_x100 * 9) 5 + 3200

/-- The temperature text of `scd41_draw_callback` (lines 68-69): the format
`%ld.%ldF` applied to `temp_f_x100 / 100` and `labs(temp_f_x100 % 100) / 10`. -/
def scd41_draw_temp_text (app : Scd41App) : String :=
  snprintf 16
    (fmt_d (Int.tdiv (scd41_draw_temp_f_x100 app) 100) ++ "." ++
      fmt_d (Int.tdiv ((Int.tmod (scd41_draw_temp_f_x100 app) 100).natAbs : Int) 10) ++ "F")

/-- The scan for the minimum and maximum (lines 84-87): `n` iterations left, loop
variable `i`. -/
def scd41_draw_minmax_loop (app : Scd41App) : Nat → Nat → Nat → Nat → Nat × Nat
  | 0, _, min_val, max_val => (min_val, max_val)
  | n + 1, i, min_val, max_val =>
    scd41_draw_minmax_loop app n (u8 (i + 1))
      (if app.co2_history i < min_val then app.co2_history i else min_val)
      (if app.co2_history i > max_val then app.co2_history i else max_val)

/-- The pair `(min_val, max_val)` after the scan (lines 82-87). -/
def scd41_draw_minmax (app : Scd41App) : Nat × Nat :=
  scd41_draw_minmax_loop app app.history_count 0 (app.co2_history 0) (app.co2_history 0)

/-- The padding of the range (lines 90-96) applied to `(min_val, max_val)`: the
stores are into `uint16_t`, the comparison `max_val - min_val < 100` is made in
`int`. -/
def scd41_draw_pad (min_val max_val : Nat) : Nat × Nat :=
  let min1 := if min_val > 50 then u16_of_int ((min_val : Int) - 50) else min_val
  let max1 := u16 (max_val + 50)
  if (max1 : Int) - (min1 : Int) < 100 then (min1, u16 (min1 + 100)) else (min1, max1)

/-- The pair `(min_val, max_val)` used for the labels and the scaling. -/
def scd41_draw_bounds (app : Scd41App) : Nat × Nat :=
  scd41_draw_pad (scd41_draw_minmax app).1 (scd41_draw_minmax app).2

/-- The local `range` (line 107). -/
def scd41_draw_range (app : Scd41App) : Nat :=
  u16_of_int (((scd41_draw_bounds app).2 : Int) - ((scd41_draw_bounds app).1 : Int))

/-- The local `x` of the plot loop (line 116) for the loop variable `i`. -/
def scd41_draw_x (app : Scd41App) (i : Nat) : Int :=
  i16 ((GRAPH_X : Int) + Int.tdiv ((i : Int) * ((GRAPH_WIDTH : Int) - 1))
    ((app.history_count : Int) - 1))

/-- The local `y` of the plot loop before the clamp (lines 119-120) for the sample
`val`. -/
def scd41_draw_y_raw (app : Scd41App) (val : Nat) : Int :=
  i16 ((GRAPH_Y : Int) + (GRAPH_HEIGHT : Int) - 1 -
    Int.tdiv (((val : Int) - ((scd41_draw_bounds app).1 : Int)) * ((GRAPH_HEIGHT : Int) - 1))
      (scd41_draw_range app : Int))

/-- The clamp of `y` to the graph (lines 123-124). -/
def scd41_draw_clamp (y : Int) : Int :=
  let y1 := if y < (GRAPH_Y : Int) then (GRAPH_Y : Int) else y
  if y1 > (GRAPH_Y : Int) + (GRAPH_HEIGHT : Int) - 1 then (GRAPH_Y : Int) + (GRAPH_HEIGHT : Int) - 1
  else y1

/-- The points `(x, y)` the plot loop joins by line segments (lines 111-133):
`n` iterations left, loop variable `i`. -/
def scd41_draw_points (app : Scd41App) (start_idx : Nat) : Nat → Nat → List (Int × Int)
  | 0, _ => []
  | n + 1, i =>
    (scd41_draw_x app i,
      scd41_draw_clamp (scd41_draw_y_raw app
        (app.co2_history (u8 ((start_idx + i) % HISTORY_SIZE))))) ::
      scd41_draw_points app start_idx n (u8 (i + 1))

/-- The graph of `scd41_draw_callback`: nothing when `sensor_ok` is false (the early
return of lines 51-56), the points when `history_count > 1`, and nothing (the text
"Collecting...") otherwise. -/
def scd41_draw_graph (app : Scd41App) : List (Int × Int) :=
  if !app.sensor_ok then []
  else if app.history_count > 1 then
    scd41_draw_points app (scd41_draw_start_idx app) app.history_count 0
  else []

/-! ## Inputs for the renderer -/

/-- A scripted sensor that is ready on every poll and delivers the CO2 values 400
and then 65535. -/
def spike_world : World (List (List Nat)) :=
  { bus := [frame 0x8006, frame 400 ++ frame 21000 ++ frame 28000,
      frame 0x8006, frame 65535 ++ frame 21000 ++ frame 28000],
    trace := [] }

/-- A scripted sensor that delivers the raw temperature word 10089. -/
def frost_world : World (List (List Nat)) :=
  { bus := [frame 0x8006, frame 800 ++ frame 10089 ++ frame 28000], trace := [] }

/-- The value `m` is the minimum of the list `l`. -/
def IsMinOf (m : Nat) (l : List Nat) : Prop := m ∈ l ∧ ∀ v ∈ l, m ≤ v

/-- The value `m` is the maximum of the list `l`. -/
def IsMaxOf (m : Nat) (l : List Nat) : Prop := m ∈ l ∧ ∀ v ∈ l, v ≤ m

/-! # Theorems -/

/-! ## Lemmas on words and buffers -/

theorem word_eq (a b : Nat) (ha : a < 256) (hb : b < 256) :
    u16 ((a <<< 8) ||| b) = 256 * a + b := by
  have h : (a <<< 8) ||| b = 2 ^ 8 * a + b := by
    rw [Nat.shiftLeft_eq, Nat.mul_comm a (2 ^ 8)]
    exact (Nat.mul_add_lt_is_or (by simpa using hb) a).symm
  rw [h]
  unfold u16
  omega

theorem rx_store_lt (len : Nat) (bytes : List Nat) (i : Nat) :
    rx_store (fun _ => 0) len bytes i < 256 := by
  unfold rx_store u8
  split
  · split
    · omega
    · simp
  · simp

theorem read_words_rx_lt (hal : Hal σ) (cmd len : Nat) (w : World σ) (i : Nat) :
    (scd4x_read_words hal cmd (fun _ => 0) len w).2.1 i < 256 := by
  unfold scd4x_read_words
  simp only []
  split <;> split <;> simp [furi_hal_i2c_rx, rx_store_lt]

theorem i16_of_range (x : Int) (h1 : -32768 ≤ x) (h2 : x < 32768) : i16 x = x := by
  unfold i16
  omega

theorem decode_eq (rx : Nat → Nat) (h : ∀ i, rx i < 256) :
    scd4x_decode rx =
      { co2_ppm := raw_word rx 0
        temp_c_x100 := -4500 + (17500 * (raw_word rx 3 : Int)) / 65536
        rh_x100 := (10000 * (raw_word rx 6 : Int)) / 65536 } := by
  have h3 := h 3
  have h4 := h 4
  have h6 := h 6
  have h7 := h 7
  unfold scd4x_decode
  simp only [word_eq _ _ (h 0) (h 1), word_eq _ _ h3 h4, word_eq _ _ h6 h7, raw_word]
  rw [Int.tdiv_eq_ediv (by positivity) (by norm_num),
    Int.tdiv_eq_ediv (by positivity) (by norm_num)]
  rw [i16_of_range _ (by omega) (by omega), i16_of_range _ (by omega) (by omega)]

theorem read_measurement_ok_iff (hal : Hal σ) (o : Scd4xReading) (w : World σ) :
    (scd4x_read_measurement hal (some o) w).1 = Scd4xStatus.Ok ↔
      (scd4x_get_data_ready hal false w).1 = Scd4xStatus.Ok ∧
      (scd4x_get_data_ready hal false w).2.1 = true ∧
      (scd4x_read_words hal CMD_READ_MEASUREMENT (fun _ => 0) 9
        (scd4x_get_data_ready hal false w).2.2).1 = Scd4xStatus.Ok ∧
      scd4x_check_words (measurement_rx hal w) 3 0 = true := by
  simp only [scd4x_read_measurement, measurement_rx]
  split_ifs <;> simp_all

theorem read_measurement_ok_out (hal : Hal σ) (o : Scd4xReading) (w : World σ)
    (h : (scd4x_read_measurement hal (some o) w).1 = Scd4xStatus.Ok) :
    (scd4x_read_measurement hal (some o) w).2.1 = some (scd4x_decode (measurement_rx hal w)) := by
  revert h
  simp only [scd4x_read_measurement, measurement_rx]
  split_ifs <;> simp_all

theorem measurement_rx_lt (hal : Hal σ) (w : World σ) (i : Nat) :
    measurement_rx hal w i < 256 :=
  read_words_rx_lt hal _ _ _ i

theorem floor_temp (T : Nat) :
    ⌊(100 : ℚ) * (-45 + 175 * (T : ℚ) / 65536)⌋ = -4500 + (17500 * (T : Int)) / 65536 := by
  have e : (100 : ℚ) * (-45 + 175 * (T : ℚ) / 65536) =
      ((17500 * (T : Int) - 294912000 : Int) : ℚ) / ((65536 : Nat) : ℚ) := by
    push_cast
    ring
  rw [e, Rat.floor_intCast_div_natCast]
  push_cast
  omega

theorem floor_rh (H : Nat) :
    ⌊(10000 : ℚ) * (H : ℚ) / 65536⌋ = (10000 * (H : Int)) / 65536 := by
  have e : (10000 : ℚ) * (H : ℚ) / 65536 =
      ((10000 * (H : Int) : Int) : ℚ) / ((65536 : Nat) : ℚ) := by
    push_cast
    ring
  rw [e, Rat.floor_intCast_div_natCast]
  push_cast
  rfl

/-! ## The checksum against the reference algorithm -/

set_option maxRecDepth 100000 in
theorem crc8_bit_step (c : Nat) (h : c < 256) :
    (if c &&& 0x80 ≠ 0 then u8 ((c <<< 1) ^^^ 0x31) else u8 (c <<< 1)) = crc8_ref_step 0x31 c ∧
      crc8_ref_step 0x31 c < 256 := by
  revert c
  unfold crc8_ref_step u8
  decide

theorem crc8_bits_eq (n c : Nat) (h : c < 256) :
    scd4x_crc8_bits n c = (crc8_ref_step 0x31)^[n] c ∧ (crc8_ref_step 0x31)^[n] c < 256 := by
  induction n generalizing c with
  | zero => exact ⟨rfl, h⟩
  | succ n ih =>
    rw [scd4x_crc8_bits, Function.iterate_succ_apply, (crc8_bit_step c h).1]
    exact ih _ (crc8_bit_step c h).2

theorem crc8_loop_eq (bytes : List Nat) (data : Nat → Nat) (i crc : Nat) (hc : crc < 256)
    (hd : ∀ k, k < bytes.length → data (i + k) = bytes.getD k 0)
    (hb : ∀ b ∈ bytes, b < 256) :
    scd4x_crc8_loop data bytes.length i crc =
      bytes.foldl (fun crc b => (crc8_ref_step 0x31)^[8] (crc ^^^ b)) crc := by
  induction bytes generalizing i crc with
  | nil => rfl
  | cons b rest ih =>
    have hb0 : b < 256 := hb b (List.mem_cons_self _ _)
    have hx : crc ^^^ b < 256 := Nat.xor_lt_two_pow (n := 8) hc hb0
    have h0 : data i = b := by simpa using hd 0 (by simp)
    rw [List.length_cons, scd4x_crc8_loop, List.foldl_cons, h0]
    have hu : u8 (crc ^^^ b) = crc ^^^ b := Nat.mod_eq_of_lt hx
    rw [hu, (crc8_bits_eq 8 _ hx).1]
    apply ih _ _ (crc8_bits_eq 8 _ hx).2
    · intro k hk
      have := hd (k + 1) (by simpa using hk)
      simpa [Nat.add_assoc, Nat.add_comm 1 k] using this
    · intro c hcm
      exact hb c (List.mem_cons_of_mem _ hcm)

/-! ## C1: temperature decoding -/

/-- C1, as stated, fails: a valid measurement delivering the raw temperature word
`T = 1` stores `temp_c_x100 = -4500`, while the exact value
`100 * (-45 + 175 * 1 / 65536)` rounded toward zero is `-4499`. -/
theorem temp_not_rounded_toward_zero :
    (scd4x_read_measurement script_bus (some reading_zero) (sample_world 0x8006 400 1 0)).1
        = Scd4xStatus.Ok ∧
      raw_word (measurement_rx script_bus (sample_world 0x8006 400 1 0)) 3 = 1 ∧
      (scd4x_read_measurement script_bus (some reading_zero) (sample_world 0x8006 400 1 0)).2.1
        = some { co2_ppm := 400, temp_c_x100 := -4500, rh_x100 := 0 } ∧
      trunc_toward_zero ((100 : ℚ) * (-45 + 175 * ((1 : Nat) : ℚ) / 65536)) = -4499 := by
  refine ⟨by decide, by decide, by decide, ?_⟩
  have hneg : ¬ (0 : ℚ) ≤ 100 * (-45 + 175 * ((1 : Nat) : ℚ) / 65536) := by norm_num
  rw [trunc_toward_zero, if_neg hneg, Int.ceil_eq_iff]
  norm_num

/-- C1 (amended): whenever `scd4x_read_measurement` returns Ok, the stored
`temp_c_x100` is the exact value `100 * (-45 + 175 * T / 65536)` rounded down
(toward minus infinity), where `T < 65536` is the big-endian word in `rx[3..4]`;
`T = 0` gives `-4500` and `T = 65535` gives `12999`. -/
theorem temp_rounded_down (hal : Hal σ) (w : World σ) (o : Scd4xReading)
    (h : (scd4x_read_measurement hal (some o) w).1 = Scd4xStatus.Ok) :
    (∃ r, (scd4x_read_measurement hal (some o) w).2.1 = some r ∧
      raw_word (measurement_rx hal w) 3 < 65536 ∧
      r.temp_c_x100 =
        ⌊(100 : ℚ) * (-45 + 175 * (raw_word (measurement_rx hal w) 3 : ℚ) / 65536)⌋) ∧
    (scd4x_read_measurement script_bus (some reading_zero)
      (sample_world 0x8006 400 0 0)).2.1
        = some { co2_ppm := 400, temp_c_x100 := -4500, rh_x100 := 0 } ∧
    (scd4x_read_measurement script_bus (some reading_zero)
      (sample_world 0x8006 400 65535 0)).2.1
        = some { co2_ppm := 400, temp_c_x100 := 12999, rh_x100 := 0 } := by
  refine ⟨⟨_, read_measurement_ok_out hal o w h, ?_, ?_⟩, by decide, by decide⟩
  · have h3 := measurement_rx_lt hal w 3
    have h4 := measurement_rx_lt hal w 4
    show 256 * measurement_rx hal w 3 + measurement_rx hal w 4 < 65536
    omega
  · rw [decode_eq _ (measurement_rx_lt hal w), floor_temp]

theorem temp_rounded_down_witness :
    (scd4x_read_measurement script_bus (some reading_zero)
        (sample_world 0x8006 800 21000 28000)).1 = Scd4xStatus.Ok ∧
      ((∃ r, (scd4x_read_measurement script_bus (some reading_zero)
          (sample_world 0x8006 800 21000 28000)).2.1 = some r ∧
        raw_word (measurement_rx script_bus (sample_world 0x8006 800 21000 28000)) 3 < 65536 ∧
        r.temp_c_x100 = ⌊(100 : ℚ) * (-45 + 175 *
          (raw_word (measurement_rx script_bus (sample_world 0x8006 800 21000 28000)) 3 : ℚ)
            / 65536)⌋) ∧
      (scd4x_read_measurement script_bus (some reading_zero)
        (sample_world 0x8006 400 0 0)).2.1
          = some { co2_ppm := 400, temp_c_x100 := -4500, rh_x100 := 0 } ∧
      (scd4x_read_measurement script_bus (some reading_zero)
        (sample_world 0x8006 400 65535 0)).2.1
          = some { co2_ppm := 400, temp_c_x100 := 12999, rh_x100 := 0 }) :=
  ⟨by decide, temp_rounded_down script_bus _ reading_zero (by decide)⟩

/-! ## C2: humidity decoding -/

/-- C2: whenever `scd4x_read_measurement` returns Ok, the stored `rh_x100` is
`10000 * H / 65536` truncated to an integer, where `H < 65536` is the big-endian
word in `rx[6..7]`; `H = 0` gives `0` and `H = 65535` gives `9999`. -/
theorem rh_truncated (hal : Hal σ) (w : World σ) (o : Scd4xReading)
    (h : (scd4x_read_measurement hal (some o) w).1 = Scd4xStatus.Ok) :
    (∃ r, (scd4x_read_measurement hal (some o) w).2.1 = some r ∧
      raw_word (measurement_rx hal w) 6 < 65536 ∧
      r.rh_x100 =
        trunc_toward_zero ((10000 : ℚ) * (raw_word (measurement_rx hal w) 6 : ℚ) / 65536)) ∧
    (scd4x_read_measurement script_bus (some reading_zero)
      (sample_world 0x8006 400 0 0)).2.1
        = some { co2_ppm := 400, temp_c_x100 := -4500, rh_x100 := 0 } ∧
    (scd4x_read_measurement script_bus (some reading_zero)
      (sample_world 0x8006 400 0 65535)).2.1
        = some { co2_ppm := 400, temp_c_x100 := -4500, rh_x100 := 9999 } := by
  refine ⟨⟨_, read_measurement_ok_out hal o w h, ?_, ?_⟩, by decide, by decide⟩
  · have h6 := measurement_rx_lt hal w 6
    have h7 := measurement_rx_lt hal w 7
    show 256 * measurement_rx hal w 6 + measurement_rx hal w 7 < 65536
    omega
  · have hpos : (0 : ℚ) ≤ (10000 : ℚ) * (raw_word (measurement_rx hal w) 6 : ℚ) / 65536 := by
      positivity
    rw [decode_eq _ (measurement_rx_lt hal w), trunc_toward_zero, if_pos hpos, floor_rh]

theorem rh_truncated_witness :
    (scd4x_read_measurement script_bus (some reading_zero)
        (sample_world 0x8006 800 21000 28000)).1 = Scd4xStatus.Ok ∧
      ((∃ r, (scd4x_read_measurement script_bus (some reading_zero)
          (sample_world 0x8006 800 21000 28000)).2.1 = some r ∧
        raw_word (measurement_rx script_bus (sample_world 0x8006 800 21000 28000)) 6 < 65536 ∧
        r.rh_x100 = trunc_toward_zero ((10000 : ℚ) *
          (raw_word (measurement_rx script_bus (sample_world 0x8006 800 21000 28000)) 6 : ℚ)
            / 65536)) ∧
      (scd4x_read_measurement script_bus (some reading_zero)
        (sample_world 0x8006 400 0 0)).2.1
          = some { co2_ppm := 400, temp_c_x100 := -4500, rh_x100 := 0 } ∧
      (scd4x_read_measurement script_bus (some reading_zero)
        (sample_world 0x8006 400 0 65535)).2.1
          = some { co2_ppm := 400, temp_c_x100 := -4500, rh_x100 := 9999 }) :=
  ⟨by decide, rh_truncated script_bus _ reading_zero (by decide)⟩

/-! ## C3: the checksum -/

/-- C3: on every byte sequence `scd4x_crc8` equals the reference CRC-8 with
polynomial 0x31 and initial value 0xFF (no reflection, no final XOR), and on the
bytes `[0xBE, 0xEF]` it returns `0x92`. -/
theorem crc8_matches_reference (bytes : List Nat) (hb : ∀ b ∈ bytes, b < 256) :
    scd4x_crc8 (fun i => bytes.getD i 0) bytes.length = crc8_reference 0x31 0xFF bytes ∧
      scd4x_crc8 (fun i => [0xBE, 0xEF].getD i 0) 2 = 0x92 := by
  refine ⟨?_, by decide⟩
  unfold scd4x_crc8 crc8_reference
  exact crc8_loop_eq bytes _ 0 0xFF (by norm_num) (fun k _ => by simp) hb

theorem crc8_matches_reference_witness :
    (∀ b ∈ [0x00, 0x00], b < 256) ∧
      (scd4x_crc8 (fun i => [0x00, 0x00].getD i 0) [0x00, 0x00].length
          = crc8_reference 0x31 0xFF [0x00, 0x00] ∧
        scd4x_crc8 (fun i => [0xBE, 0xEF].getD i 0) 2 = 0x92) :=
  ⟨by decide, crc8_matches_reference [0x00, 0x00] (by decide)⟩

/-! ## The exchanges of `scd4x_read_measurement` -/

theorem read_words_ok_iff (hal : Hal σ) (cmd len : Nat) (rx : Nat → Nat) (w : World σ) :
    (scd4x_read_words hal cmd rx len w).1 = Scd4xStatus.Ok ↔
      xchg_ok hal [u8 (cmd >>> 8), u8 (cmd &&& 0xFF)] len w.bus = true := by
  simp only [scd4x_read_words, xchg_ok, xchg_tx, xchg_rx, furi_hal_i2c_tx, furi_hal_i2c_rx,
    furi_hal_i2c_acquire, furi_delay_ms]
  split_ifs <;> simp_all

theorem read_words_of_ok (hal : Hal σ) (cmd len : Nat) (w : World σ)
    (h : xchg_ok hal [u8 (cmd >>> 8), u8 (cmd &&& 0xFF)] len w.bus = true) :
    (scd4x_read_words hal cmd (fun _ => 0) len w).2.1
        = xchg_buf hal [u8 (cmd >>> 8), u8 (cmd &&& 0xFF)] len w.bus ∧
      (scd4x_read_words hal cmd (fun _ => 0) len w).2.2.bus
        = xchg_bus hal [u8 (cmd >>> 8), u8 (cmd &&& 0xFF)] len w.bus ∧
      (scd4x_read_words hal cmd (fun _ => 0) len w).2.2.trace
        = w.trace ++ xchg_events [u8 (cmd >>> 8), u8 (cmd &&& 0xFF)] len := by
  revert h
  simp only [scd4x_read_words, xchg_ok, xchg_tx, xchg_rx, xchg_buf, xchg_bus, xchg_events,
    furi_hal_i2c_tx, furi_hal_i2c_rx, furi_hal_i2c_acquire, furi_hal_i2c_release, furi_delay_ms]
  intro h
  simp only [Bool.and_eq_true] at h
  simp [h.1, h.2]

theorem ready_cmd_bytes :
    [u8 (CMD_GET_DATA_READY_STATUS >>> 8), u8 (CMD_GET_DATA_READY_STATUS &&& 0xFF)]
      = [0xE4, 0xB8] := by decide

theorem measure_cmd_bytes :
    [u8 (CMD_READ_MEASUREMENT >>> 8), u8 (CMD_READ_MEASUREMENT &&& 0xFF)]
      = [0xEC, 0x05] := by decide

theorem get_data_ready_ok_iff (hal : Hal σ) (w : World σ) :
    (scd4x_get_data_ready hal false w).1 = Scd4xStatus.Ok ↔
      xchg_ok hal [0xE4, 0xB8] 3 w.bus = true ∧
      scd4x_crc8 (xchg_buf hal [0xE4, 0xB8] 3 w.bus) 2 = xchg_buf hal [0xE4, 0xB8] 3 w.bus 2 := by
  have hiff := read_words_ok_iff hal CMD_GET_DATA_READY_STATUS 3 (fun _ => 0) w
  rw [ready_cmd_bytes] at hiff
  by_cases hok : xchg_ok hal [0xE4, 0xB8] 3 w.bus = true
  · have hst := hiff.2 hok
    have hbuf := (read_words_of_ok hal CMD_GET_DATA_READY_STATUS 3 w
      (by rw [ready_cmd_bytes]; exact hok)).1
    rw [ready_cmd_bytes] at hbuf
    simp only [scd4x_get_data_ready, hst, hbuf]
    split_ifs <;> simp_all
  · have hst : (scd4x_read_words hal CMD_GET_DATA_READY_STATUS (fun _ => 0) 3 w).1
        ≠ Scd4xStatus.Ok := fun h => hok (hiff.1 h)
    simp only [scd4x_get_data_ready]
    simp [hst, hok]

theorem get_data_ready_of_ok (hal : Hal σ) (w : World σ)
    (h : (scd4x_get_data_ready hal false w).1 = Scd4xStatus.Ok) :
    (scd4x_get_data_ready hal false w).2.1
        = (raw_word (xchg_buf hal [0xE4, 0xB8] 3 w.bus) 0 &&& 0x07FF != 0) ∧
      (scd4x_get_data_ready hal false w).2.2.bus = bus_after_ready hal w.bus ∧
      (scd4x_get_data_ready hal false w).2.2.trace = w.trace ++ xchg_events [0xE4, 0xB8] 3 := by
  have hok := (get_data_ready_ok_iff hal w).1 h
  have hiff := read_words_ok_iff hal CMD_GET_DATA_READY_STATUS 3 (fun _ => 0) w
  rw [ready_cmd_bytes] at hiff
  have hst := hiff.2 hok.1
  have hrw := read_words_of_ok hal CMD_GET_DATA_READY_STATUS 3 w
    (by rw [ready_cmd_bytes]; exact hok.1)
  rw [ready_cmd_bytes] at hrw
  have hw : u16 ((xchg_buf hal [0xE4, 0xB8] 3 w.bus 0 <<< 8) |||
      xchg_buf hal [0xE4, 0xB8] 3 w.bus 1) = raw_word (xchg_buf hal [0xE4, 0xB8] 3 w.bus) 0 :=
    word_eq _ _ (rx_store_lt _ _ _) (rx_store_lt _ _ _)
  simp only [scd4x_get_data_ready, hst, hrw.1, hok.2, bus_after_ready]
  rw [hw]
  simp only [ne_eq, not_true_eq_false, if_false]
  exact ⟨trivial, hrw.2.1, hrw.2.2⟩

theorem check_words_iff (rx : Nat → Nat) :
    scd4x_check_words rx 3 0 = true ↔
      ∀ k, k < 3 → scd4x_crc8 (fun j => rx (3 * k + j)) 2 = rx (3 * k + 2) := by
  simp only [scd4x_check_words]
  constructor
  · intro h k hk
    interval_cases k <;> simp_all
  · intro h
    have h0 := h 0 (by norm_num)
    have h1 := h 1 (by norm_num)
    have h2 := h 2 (by norm_num)
    simp_all

theorem measure_exchange (hal : Hal σ) (w : World σ)
    (h : (scd4x_get_data_ready hal false w).1 = Scd4xStatus.Ok) :
    ((scd4x_read_words hal CMD_READ_MEASUREMENT (fun _ => 0) 9
        (scd4x_get_data_ready hal false w).2.2).1 = Scd4xStatus.Ok ↔
      xchg_ok hal [0xEC, 0x05] 9 (bus_after_ready hal w.bus) = true) ∧
    (xchg_ok hal [0xEC, 0x05] 9 (bus_after_ready hal w.bus) = true →
      measurement_rx hal w = measure_buf hal w.bus) := by
  have hb := (get_data_ready_of_ok hal w h).2.1
  have hiff := read_words_ok_iff hal CMD_READ_MEASUREMENT 9 (fun _ => 0)
    (scd4x_get_data_ready hal false w).2.2
  rw [measure_cmd_bytes, hb] at hiff
  refine ⟨hiff, fun hok => ?_⟩
  have hrw := read_words_of_ok hal CMD_READ_MEASUREMENT 9 (scd4x_get_data_ready hal false w).2.2
    (by rw [measure_cmd_bytes, hb]; exact hok)
  rw [measure_cmd_bytes, hb] at hrw
  exact hrw.1

/-! ## C4: when `scd4x_read_measurement` returns Ok -/

/-- C4: with a non-null `out`, `scd4x_read_measurement` returns Ok exactly when the
data-ready exchange succeeds, the checksum of its two status bytes equals the third
byte, `status & 0x07FF` is not zero, the read-measurement exchange succeeds and each
of the three 3-byte groups has a matching checksum; the reading then holds the raw
word `256 * rx[0] + rx[1]` as `co2_ppm`, and the temperature and humidity decoded
from the big-endian words at `rx[3..4]` and `rx[6..7]`. -/
theorem read_measurement_ok_exactly (hal : Hal σ) (w : World σ) (o : Scd4xReading) :
    ((scd4x_read_measurement hal (some o) w).1 = Scd4xStatus.Ok ↔
      (xchg_ok hal [0xE4, 0xB8] 3 w.bus = true ∧
        scd4x_crc8 (ready_buf hal w.bus) 2 = ready_buf hal w.bus 2 ∧
        raw_word (ready_buf hal w.bus) 0 &&& 0x07FF ≠ 0 ∧
        xchg_ok hal [0xEC, 0x05] 9 (bus_after_ready hal w.bus) = true ∧
        ∀ k, k < 3 → scd4x_crc8 (fun j => measure_buf hal w.bus (3 * k + j)) 2
          = measure_buf hal w.bus (3 * k + 2))) ∧
    ((scd4x_read_measurement hal (some o) w).1 = Scd4xStatus.Ok →
      (scd4x_read_measurement hal (some o) w).2.1 = some
        { co2_ppm := 256 * measure_buf hal w.bus 0 + measure_buf hal w.bus 1
          temp_c_x100 := -4500 + (17500 * (raw_word (measure_buf hal w.bus) 3 : Int)) / 65536
          rh_x100 := (10000 * (raw_word (measure_buf hal w.bus) 6 : Int)) / 65536 }) := by
  have hiff : (scd4x_read_measurement hal (some o) w).1 = Scd4xStatus.Ok ↔
      (xchg_ok hal [0xE4, 0xB8] 3 w.bus = true ∧
        scd4x_crc8 (ready_buf hal w.bus) 2 = ready_buf hal w.bus 2 ∧
        raw_word (ready_buf hal w.bus) 0 &&& 0x07FF ≠ 0 ∧
        xchg_ok hal [0xEC, 0x05] 9 (bus_after_ready hal w.bus) = true ∧
        ∀ k, k < 3 → scd4x_crc8 (fun j => measure_buf hal w.bus (3 * k + j)) 2
          = measure_buf hal w.bus (3 * k + 2)) := by
    rw [read_measurement_ok_iff]
    constructor
    · rintro ⟨hg, hr, hm, hc⟩
      have hg' := (get_data_ready_ok_iff hal w).1 hg
      have hrdy := (get_data_ready_of_ok hal w hg).1
      have hx := (measure_exchange hal w hg).1.1 hm
      have hbuf := (measure_exchange hal w hg).2 hx
      rw [hbuf] at hc
      rw [hrdy] at hr
      exact ⟨hg'.1, hg'.2, by simpa [ready_buf] using hr, hx, (check_words_iff _).1 hc⟩
    · rintro ⟨h1, h2, h3, h4, h5⟩
      have hg := (get_data_ready_ok_iff hal w).2 ⟨h1, h2⟩
      have hrdy := (get_data_ready_of_ok hal w hg).1
      have hbuf := (measure_exchange hal w hg).2 h4
      refine ⟨hg, ?_, (measure_exchange hal w hg).1.2 h4, ?_⟩
      · rw [hrdy]
        simpa [ready_buf] using h3
      · rw [hbuf]
        exact (check_words_iff _).2 h5
  refine ⟨hiff, fun hok => ?_⟩
  have hall := hiff.1 hok
  have hg := (get_data_ready_ok_iff hal w).2 ⟨hall.1, hall.2.1⟩
  have hbuf := (measure_exchange hal w hg).2 hall.2.2.2.1
  rw [read_measurement_ok_out hal o w hok, decode_eq _ (measurement_rx_lt hal w), hbuf]
  rfl

/-! ## C5: a poll that finds the sensor not ready -/

/-- C5: when the data-ready exchange succeeds at transport level, its checksum is
valid and the low 11 bits of the status word are zero, `scd4x_read_measurement`
returns NotReady, leaves `*out` unchanged, and the only HAL calls it makes are those
of the data-ready exchange: one transmit of `0xE4B8` and one receive of 3 bytes. -/
theorem not_ready_stops_after_query (hal : Hal σ) (w : World σ) (o : Scd4xReading)
    (hx : xchg_ok hal [0xE4, 0xB8] 3 w.bus = true)
    (hc : scd4x_crc8 (ready_buf hal w.bus) 2 = ready_buf hal w.bus 2)
    (hz : raw_word (ready_buf hal w.bus) 0 &&& 0x07FF = 0) :
    (scd4x_read_measurement hal (some o) w).1 = Scd4xStatus.NotReady ∧
      (scd4x_read_measurement hal (some o) w).2.1 = some o ∧
      (scd4x_read_measurement hal (some o) w).2.2.trace = w.trace ++
        [BusEvent.acquire, BusEvent.tx SCD4X_ADDR [0xE4, 0xB8] 50 true, BusEvent.delay_ms 2,
          BusEvent.rx SCD4X_ADDR 3 50 true, BusEvent.release] := by
  have hg := (get_data_ready_ok_iff hal w).2 ⟨hx, hc⟩
  have hof := get_data_ready_of_ok hal w hg
  have hrdy : (scd4x_get_data_ready hal false w).2.1 = false := by
    rw [hof.1]
    simpa [ready_buf] using hz
  simp only [scd4x_read_measurement, hg, hrdy]
  exact ⟨by simp, by simp, by simpa [xchg_events] using hof.2.2⟩

theorem not_ready_stops_after_query_witness :
    (xchg_ok script_bus [0xE4, 0xB8] 3 (sample_world 0xF800 800 21000 28000).bus = true ∧
      scd4x_crc8 (ready_buf script_bus (sample_world 0xF800 800 21000 28000).bus) 2
        = ready_buf script_bus (sample_world 0xF800 800 21000 28000).bus 2 ∧
      raw_word (ready_buf script_bus (sample_world 0xF800 800 21000 28000).bus) 0 &&& 0x07FF
        = 0) ∧
    ((scd4x_read_measurement script_bus (some reading_zero)
        (sample_world 0xF800 800 21000 28000)).1 = Scd4xStatus.NotReady ∧
      (scd4x_read_measurement script_bus (some reading_zero)
        (sample_world 0xF800 800 21000 28000)).2.1 = some reading_zero ∧
      (scd4x_read_measurement script_bus (some reading_zero)
        (sample_world 0xF800 800 21000 28000)).2.2.trace
          = (sample_world 0xF800 800 21000 28000).trace ++
        [BusEvent.acquire, BusEvent.tx SCD4X_ADDR [0xE4, 0xB8] 50 true, BusEvent.delay_ms 2,
          BusEvent.rx SCD4X_ADDR 3 50 true, BusEvent.release]) :=
  ⟨by decide, not_ready_stops_after_query script_bus _ reading_zero
    (by decide) (by decide) (by decide)⟩

/-! ## C6: a checksum mismatch on any measurement word -/

/-- C6: after a successful ready query and a transport-successful read-measurement
exchange, when any of the three words (`k = 0, 1, 2`, at byte offsets 0, 3, 6) has a
checksum byte different from the checksum of its two data bytes,
`scd4x_read_measurement` returns ChecksumError and `*out` is left as it was. -/
theorem bad_word_checksum_rejected (hal : Hal σ) (w : World σ) (o : Scd4xReading)
    (h1 : xchg_ok hal [0xE4, 0xB8] 3 w.bus = true)
    (h2 : scd4x_crc8 (ready_buf hal w.bus) 2 = ready_buf hal w.bus 2)
    (h3 : raw_word (ready_buf hal w.bus) 0 &&& 0x07FF ≠ 0)
    (h4 : xchg_ok hal [0xEC, 0x05] 9 (bus_after_ready hal w.bus) = true)
    (k : Nat) (hk : k < 3)
    (hbad : scd4x_crc8 (fun j => measure_buf hal w.bus (3 * k + j)) 2
      ≠ measure_buf hal w.bus (3 * k + 2)) :
    (scd4x_read_measurement hal (some o) w).1 = Scd4xStatus.Crc ∧
      (scd4x_read_measurement hal (some o) w).2.1 = some o := by
  have hg := (get_data_ready_ok_iff hal w).2 ⟨h1, h2⟩
  have hrdy : (scd4x_get_data_ready hal false w).2.1 = true := by
    rw [(get_data_ready_of_ok hal w hg).1]
    simpa [ready_buf] using h3
  have hm := (measure_exchange hal w hg).1.2 h4
  have hbuf := (measure_exchange hal w hg).2 h4
  have hchk : scd4x_check_words (measurement_rx hal w) 3 0 = false := by
    rw [hbuf]
    cases hcw : scd4x_check_words (measure_buf hal w.bus) 3 0
    · rfl
    · exact absurd ((check_words_iff _).1 hcw k hk) hbad
  unfold measurement_rx at hchk
  simp only [scd4x_read_measurement, hg, hrdy, hm, hchk]
  exact ⟨by simp, by simp⟩

theorem bad_word_checksum_rejected_witness :
    (xchg_ok script_bus [0xE4, 0xB8] 3
        (sample_world_crc 0x8006 800 21000 28000 0x2A 0x06 0x00).bus = true ∧
      scd4x_crc8 (ready_buf script_bus
          (sample_world_crc 0x8006 800 21000 28000 0x2A 0x06 0x00).bus) 2
        = ready_buf script_bus (sample_world_crc 0x8006 800 21000 28000 0x2A 0x06 0x00).bus 2 ∧
      raw_word (ready_buf script_bus
          (sample_world_crc 0x8006 800 21000 28000 0x2A 0x06 0x00).bus) 0 &&& 0x07FF ≠ 0 ∧
      xchg_ok script_bus [0xEC, 0x05] 9 (bus_after_ready script_bus
          (sample_world_crc 0x8006 800 21000 28000 0x2A 0x06 0x00).bus) = true ∧
      2 < 3 ∧
      scd4x_crc8 (fun j => measure_buf script_bus
          (sample_world_crc 0x8006 800 21000 28000 0x2A 0x06 0x00).bus (3 * 2 + j)) 2
        ≠ measure_buf script_bus
          (sample_world_crc 0x8006 800 21000 28000 0x2A 0x06 0x00).bus (3 * 2 + 2)) ∧
    ((scd4x_read_measurement script_bus (some reading_zero)
        (sample_world_crc 0x8006 800 21000 28000 0x2A 0x06 0x00)).1 = Scd4xStatus.Crc ∧
      (scd4x_read_measurement script_bus (some reading_zero)
        (sample_world_crc 0x8006 800 21000 28000 0x2A 0x06 0x00)).2.1 = some reading_zero) :=
  ⟨by decide, bad_word_checksum_rejected script_bus _ reading_zero
    (by decide) (by decide) (by decide) (by decide) 2 (by decide) (by decide)⟩

/-! ## C7: the history ring -/

theorem on_poll_ok_fields (r : Scd4xReading) (app : Scd41App) :
    (scd41_app_on_poll Scd4xStatus.Ok r app).co2_history
        = Function.update app.co2_history app.history_index r.co2_ppm ∧
      (scd41_app_on_poll Scd4xStatus.Ok r app).history_index
        = u8 ((app.history_index + 1) % HISTORY_SIZE) ∧
      (scd41_app_on_poll Scd4xStatus.Ok r app).history_count
        = (if app.history_count < HISTORY_SIZE then u8 (app.history_count + 1)
            else app.history_count) ∧
      (scd41_app_on_poll Scd4xStatus.Ok r app).co2_ppm = r.co2_ppm ∧
      (scd41_app_on_poll Scd4xStatus.Ok r app).sensor_ok = true ∧
      (scd41_app_on_poll Scd4xStatus.Ok r app).status = "" := by
  simp only [scd41_app_on_poll, if_true]
  split_ifs <;> simp

theorem history_inv_push (vs : List Nat) (app : Scd41App) (r : Scd4xReading)
    (h : HistoryInv vs app) :
    HistoryInv (vs ++ [r.co2_ppm]) (scd41_app_on_poll Scd4xStatus.Ok r app) := by
  obtain ⟨hi, hc, hs⟩ := h
  obtain ⟨fh, fi, fc, -⟩ := on_poll_ok_fields r app
  refine ⟨?_, ?_, ?_⟩
  · rw [fi, hi, List.length_append, List.length_singleton]
    unfold u8 HISTORY_SIZE
    omega
  · rw [fc, hc, List.length_append, List.length_singleton]
    unfold u8 HISTORY_SIZE
    split_ifs <;> omega
  · intro p hp hlen
    rw [List.length_append, List.length_singleton] at hp hlen
    rw [fh, hi]
    by_cases hpn : p = vs.length
    · subst hpn
      simp [List.getD_eq_getElem?_getD]
    · have hlt : p < vs.length := by omega
      have hne : p % 90 ≠ vs.length % 90 := by omega
      rw [Function.update_noteq hne, hs p hlt (by omega)]
      simp [List.getD_eq_getElem?_getD, List.getElem?_append_left hlt]

theorem history_inv_push_all (rs : List Scd4xReading) (vs : List Nat) (app : Scd41App)
    (h : HistoryInv vs app) :
    HistoryInv (vs ++ rs.map (fun r => r.co2_ppm)) (push_all rs app) := by
  induction rs generalizing vs app with
  | nil => simpa [push_all] using h
  | cons r rest ih =>
    have := ih (vs ++ [r.co2_ppm]) _ (history_inv_push vs app r h)
    simpa [push_all, List.append_assoc] using this

theorem draw_vals_eq (vs : List Nat) (app : Scd41App) (h : HistoryInv vs app) (k i : Nat)
    (hik : i + k ≤ min vs.length 90) :
    scd41_draw_vals app (scd41_draw_start_idx app) k i
      = (vs.drop (vs.length - min vs.length 90 + i)).take k := by
  obtain ⟨hi, hc, hs⟩ := h
  induction k generalizing i with
  | zero => simp [scd41_draw_vals]
  | succ k ih =>
    have hm : vs.length - min vs.length 90 + i < vs.length := by omega
    have hidx : u8 ((scd41_draw_start_idx app + i) % HISTORY_SIZE)
        = (vs.length - min vs.length 90 + i) % 90 := by
      have hnn : (0 : Int) ≤ (app.history_index : Int) + ((90 : Nat) : Int)
          - (app.history_count : Int) := by
        rw [hc]
        omega
      unfold scd41_draw_start_idx u8_of_int u8 HISTORY_SIZE
      rw [Int.tmod_eq_emod hnn (by norm_num), hi, hc]
      omega
    have hnext : u8 (i + 1) = i + 1 := by
      unfold u8
      omega
    rw [scd41_draw_vals, hidx, hnext, ih (i + 1) (by omega), hs _ hm (by omega),
      List.drop_eq_getElem_cons hm, List.take_succ_cons]
    simp [List.getD_eq_getElem?_getD, List.getElem?_eq_getElem hm, Nat.add_assoc]

/-- C7: starting from the empty history (index 0, count 0), after the values of `rs`
are pushed through the Ok branch of the timer callback, `history_count` is
`min n 90` and the slots read by the plot loop, `(start_idx + i) % 90` for
`i < history_count`, hold the last `min n 90` pushed values in push order, oldest
first; for `n > 90` the count is 90. -/
theorem history_keeps_last_90 (app : Scd41App) (rs : List Scd4xReading)
    (h0 : app.history_index = 0) (hc0 : app.history_count = 0) :
    (push_all rs app).history_count = min rs.length 90 ∧
      scd41_draw_samples (push_all rs app)
        = (rs.map (fun r => r.co2_ppm)).drop (rs.length - min rs.length 90) ∧
      (90 < rs.length → (push_all rs app).history_count = 90) := by
  have hinit : HistoryInv [] app := ⟨by simpa using h0, by simpa using hc0, by simp⟩
  have hinv := history_inv_push_all rs [] app hinit
  rw [List.nil_append] at hinv
  have hcount : (push_all rs app).history_count = min rs.length 90 := by
    simpa using hinv.2.1
  refine ⟨hcount, ?_, fun hlt => by rw [hcount]; omega⟩
  unfold scd41_draw_samples
  rw [hcount, draw_vals_eq _ _ hinv _ 0 (by simp)]
  simp only [List.length_map, Nat.add_zero]
  apply List.take_of_length_le
  simp only [List.length_drop, List.length_map]
  omega

theorem history_keeps_last_90_witness :
    (app_zero.history_index = 0 ∧ app_zero.history_count = 0) ∧
    ((push_all (ramp 95) app_zero).history_count = min (ramp 95).length 90 ∧
      scd41_draw_samples (push_all (ramp 95) app_zero)
        = ((ramp 95).map (fun r => r.co2_ppm)).drop
          ((ramp 95).length - min (ramp 95).length 90) ∧
      (90 < (ramp 95).length → (push_all (ramp 95) app_zero).history_count = 90)) :=
  ⟨by decide, history_keeps_last_90 app_zero (ramp 95) rfl rfl⟩

/-! ## C8: a scan into a buffer that is too small -/

theorem probe_results_append (a b : List BusEvent) :
    probe_results (a ++ b) = probe_results a ++ probe_results b := by
  induction a with
  | nil => rfl
  | cons e rest ih =>
    cases e <;> simp [probe_results, ih]

theorem hits_from_spec (rs : List Bool) :
    ∀ base, List.Pairwise (fun a b => a < b) (hits_from base rs) ∧
      ∀ a ∈ hits_from base rs, base ≤ a ∧ a < base + rs.length := by
  induction rs with
  | nil =>
    intro base
    simp [hits_from]
  | cons r rest ih =>
    intro base
    obtain ⟨hp, hm⟩ := ih (base + 1)
    have hm' : ∀ a ∈ hits_from (base + 1) rest, base ≤ a ∧ a < base + (rest.length + 1) :=
      fun a ha => by
        have := hm a ha
        omega
    rw [hits_from, List.length_cons]
    split_ifs
    · refine ⟨List.pairwise_cons.2 ⟨fun a ha => by have := hm a ha; omega, hp⟩, ?_⟩
      intro a ha
      rcases List.mem_cons.1 ha with rfl | ha
      · omega
      · exact hm' a ha
    · exact ⟨hp, hm'⟩

theorem scan_loop_trace (hal : Hal σ) (cap n : Nat) :
    ∀ (addr : Nat) (mem : Nat → Nat) (found : Nat) (w : World σ), addr + n ≤ 255 →
      ∃ ev, (scd4x_scan_loop hal cap n addr mem found w).2.2.trace = w.trace ++ ev ∧
        (probe_results ev).length = n ∧
        (scd4x_scan_loop hal cap n addr mem found w).2.1
          = found + (hits_from addr (probe_results ev)).length ∧
        ∀ i, (scd4x_scan_loop hal cap n addr mem found w).1 i
          = if found ≤ i ∧ i < cap ∧ i < found + (hits_from addr (probe_results ev)).length
            then (hits_from addr (probe_results ev)).getD (i - found) 0
            else mem i := by
  induction n with
  | zero =>
    intro addr mem found w _
    refine ⟨[], by simp [scd4x_scan_loop], rfl, by simp [scd4x_scan_loop, probe_results,
      hits_from], fun i => ?_⟩
    simp only [scd4x_scan_loop, probe_results, hits_from, List.length_nil]
    exact (if_neg (by omega)).symm
  | succ n ih =>
    intro addr mem found w hle
    have hnext : u8 (addr + 1) = addr + 1 := by
      unfold u8
      omega
    rw [scd4x_scan_loop]
    simp only [furi_hal_i2c_is_device_ready, furi_delay_ms, hnext]
    by_cases hp : (hal.is_device_ready addr 20 w.bus).1 = true
    swap
    · have hp' : (hal.is_device_ready addr 20 w.bus).1 = false := by simpa using hp
      simp only [hp', Bool.false_eq_true, if_false]
      obtain ⟨ev, htr, hlen, hcnt, hmem⟩ := ih (addr + 1) mem found
        { bus := hal.delay_ms 1 (hal.is_device_ready addr 20 w.bus).2,
          trace := (w.trace ++ [BusEvent.is_device_ready addr 20 false])
            ++ [BusEvent.delay_ms 1] } (by omega)
      dsimp only at htr hcnt hmem
      have hres : probe_results
          ([BusEvent.is_device_ready addr 20 false, BusEvent.delay_ms 1] ++ ev)
            = false :: probe_results ev := rfl
      have hhits : hits_from addr (false :: probe_results ev)
          = hits_from (addr + 1) (probe_results ev) := by
        simp [hits_from]
      refine ⟨[BusEvent.is_device_ready addr 20 false, BusEvent.delay_ms 1] ++ ev, ?_, ?_, ?_,
        ?_⟩
      · rw [htr]
        simp
      · rw [hres, List.length_cons, hlen]
      · rw [hres, hhits]
        exact hcnt
      · intro i
        rw [hres, hhits]
        exact hmem i
    · simp only [hp, if_true]
      obtain ⟨ev, htr, hlen, hcnt, hmem⟩ := ih (addr + 1)
        (if found < cap then Function.update mem found addr else mem) (found + 1)
        { bus := hal.delay_ms 1 (hal.is_device_ready addr 20 w.bus).2,
          trace := (w.trace ++ [BusEvent.is_device_ready addr 20 true])
            ++ [BusEvent.delay_ms 1] } (by omega)
      dsimp only at htr hcnt hmem
      have hres : probe_results
          ([BusEvent.is_device_ready addr 20 true, BusEvent.delay_ms 1] ++ ev)
            = true :: probe_results ev := rfl
      have hhits : hits_from addr (true :: probe_results ev)
          = addr :: hits_from (addr + 1) (probe_results ev) := by
        simp [hits_from]
      refine ⟨[BusEvent.is_device_ready addr 20 true, BusEvent.delay_ms 1] ++ ev, ?_, ?_, ?_,
        ?_⟩
      · rw [htr]
        simp
      · rw [hres, List.length_cons, hlen]
      · rw [hres, hhits, hcnt, List.length_cons]
        omega
      · intro i
        rw [hres, hhits, hmem i, List.length_cons]
        by_cases hi : i = found
        · subst hi
          by_cases hc : i < cap <;> simp [hc]
        · have hupd : (if found < cap then Function.update mem found addr else mem) i
              = mem i := by
            split_ifs
            · exact Function.update_noteq hi _ _
            · rfl
          rw [hupd]
          by_cases hgt : found < i
          · obtain ⟨d, rfl⟩ : ∃ d, i = found + 1 + d := ⟨i - (found + 1), by omega⟩
            have e1 : found + 1 + d - (found + 1) = d := by omega
            have e2 : found + 1 + d - found = d + 1 := by omega
            rw [e1, e2, List.getD_cons_succ]
            have hiff : (found + 1 ≤ found + 1 + d ∧ found + 1 + d < cap ∧ found + 1 + d <
                found + 1 + (hits_from (addr + 1) (probe_results ev)).length) ↔
                (found ≤ found + 1 + d ∧ found + 1 + d < cap ∧ found + 1 + d <
                found + ((hits_from (addr + 1) (probe_results ev)).length + 1)) := by
              omega
            simp only [hiff]
          · have h1 : ¬ found + 1 ≤ i := by omega
            have h2 : ¬ found ≤ i := by omega
            simp [h1, h2]

theorem scan_emitted_spec (hal : Hal σ) (w : World σ) (mem : Nat → Nat) (cnt cap : Nat)
    (hcap : cap ≠ 0) :
    (scd4x_scan hal (some mem) cap (some cnt) w).1 = Scd4xStatus.Ok ∧
      (probe_results (scan_emitted hal mem cap cnt w)).length = 117 ∧
      (scd4x_scan hal (some mem) cap (some cnt) w).2.2.1
        = some (scan_hits hal mem cap cnt w).length ∧
      ∃ mem', (scd4x_scan hal (some mem) cap (some cnt) w).2.1 = some mem' ∧
        ∀ i, mem' i = if i < cap ∧ i < (scan_hits hal mem cap cnt w).length
          then (scan_hits hal mem cap cnt w).getD i 0 else mem i := by
  obtain ⟨ev, htr, hlen, hcnt, hmem⟩ := scan_loop_trace hal cap 117 0x03 mem 0
    { bus := hal.acquire w.bus, trace := w.trace ++ [BusEvent.acquire] } (by norm_num)
  have hscan : scd4x_scan hal (some mem) cap (some cnt) w =
      (Scd4xStatus.Ok,
        some (scd4x_scan_loop hal cap 117 0x03 mem 0
          { bus := hal.acquire w.bus, trace := w.trace ++ [BusEvent.acquire] }).1,
        some (scd4x_scan_loop hal cap 117 0x03 mem 0
          { bus := hal.acquire w.bus, trace := w.trace ++ [BusEvent.acquire] }).2.1,
        furi_hal_i2c_release hal (scd4x_scan_loop hal cap 117 0x03 mem 0
          { bus := hal.acquire w.bus, trace := w.trace ++ [BusEvent.acquire] }).2.2) := by
    simp [scd4x_scan, hcap, furi_hal_i2c_acquire]
  dsimp only at htr hcnt hmem
  have hem : scan_emitted hal mem cap cnt w
      = [BusEvent.acquire] ++ ev ++ [BusEvent.release] := by
    rw [scan_emitted, hscan]
    simp [furi_hal_i2c_release, htr, List.append_assoc]
  have hres : probe_results (scan_emitted hal mem cap cnt w) = probe_results ev := by
    rw [hem, probe_results_append, probe_results_append]
    simp [probe_results]
  have hhits : scan_hits hal mem cap cnt w = hits_from 0x03 (probe_results ev) := by
    rw [scan_hits, hres]
  rw [hhits, hres, hscan]
  refine ⟨rfl, hlen, by simp [hcnt], ⟨_, rfl, fun i => ?_⟩⟩
  rw [hmem i]
  simp

/-- C8, as stated, fails for the capacity 0: on a bus where the device at the 7-bit
address 0x62 answers (HAL address byte 0xC4), the capacity 0 is smaller than the
number of responding addresses, and `scd4x_scan` returns GenericError with
`*out_count = 0` without a single probe. -/
theorem scan_capacity_zero_is_error :
    responding_addresses probe_bus [0xC4] = [0x62] ∧
      0 < (responding_addresses probe_bus [0xC4]).length ∧
      (scd4x_scan probe_bus (some (fun _ => 0)) 0 (some 7) { bus := [0xC4], trace := [] }).1
        = Scd4xStatus.Error ∧
      (scd4x_scan probe_bus (some (fun _ => 0)) 0 (some 7) { bus := [0xC4], trace := [] }).2.2.1
        = some 0 ∧
      (scd4x_scan probe_bus (some (fun _ => 0)) 0 (some 7)
        { bus := [0xC4], trace := [] }).2.2.2.trace = [] := by
  decide

/-- C8 (amended): for every bus and every capacity of at least 1 that is smaller
than the number of presence probes that succeed during the scan, `scd4x_scan` (with
non-null `addrs` and `out_count`) returns Ok, makes one probe for each of the 117
addresses `0x03 .. 0x77`, sets `*out_count` to the number of probes that succeeded,
stores in `addrs[0 .. capacity-1]` the 7-bit addresses of the first `capacity`
successful probes, in ascending order, and leaves every cell from index `capacity`
on as it was. -/
theorem scan_reports_probe_count (hal : Hal σ) (w : World σ) (mem : Nat → Nat)
    (cnt cap : Nat) (hpos : 0 < cap) (hlt : cap < (scan_hits hal mem cap cnt w).length) :
    (scd4x_scan hal (some mem) cap (some cnt) w).1 = Scd4xStatus.Ok ∧
      (probe_results (scan_emitted hal mem cap cnt w)).length = 117 ∧
      (scd4x_scan hal (some mem) cap (some cnt) w).2.2.1
        = some (scan_hits hal mem cap cnt w).length ∧
      (∃ mem', (scd4x_scan hal (some mem) cap (some cnt) w).2.1 = some mem' ∧
        (∀ i, i < cap → mem' i = (scan_hits hal mem cap cnt w).getD i 0) ∧
        (∀ i, cap ≤ i → mem' i = mem i)) ∧
      List.Pairwise (fun a b => a < b) (scan_hits hal mem cap cnt w) ∧
      (∀ a ∈ scan_hits hal mem cap cnt w, 0x03 ≤ a ∧ a ≤ 0x77) := by
  obtain ⟨hst, hlen, hcnt, mem', hm, hmem⟩ :=
    scan_emitted_spec hal w mem cnt cap (by omega)
  obtain ⟨hpw, hrange⟩ := hits_from_spec (probe_results (scan_emitted hal mem cap cnt w)) 0x03
  refine ⟨hst, hlen, hcnt, ⟨mem', hm, fun i hi => ?_, fun i hi => ?_⟩, hpw, fun a ha => ?_⟩
  · rw [hmem i, if_pos ⟨hi, by omega⟩]
  · rw [hmem i, if_neg (fun h => by omega)]
  · have := hrange a ha
    rw [hlen] at this
    omega

set_option maxRecDepth 100000 in
theorem scan_reports_probe_count_witness :
    (0 < 2 ∧ 2 < (scan_hits probe_bus (fun _ => 0xFF) 2 7
        { bus := [0x10, 0x20, 0x62], trace := [] }).length) ∧
    ((scd4x_scan probe_bus (some (fun _ => 0xFF)) 2 (some 7)
        { bus := [0x10, 0x20, 0x62], trace := [] }).1 = Scd4xStatus.Ok ∧
      (probe_results (scan_emitted probe_bus (fun _ => 0xFF) 2 7
        { bus := [0x10, 0x20, 0x62], trace := [] })).length = 117 ∧
      (scd4x_scan probe_bus (some (fun _ => 0xFF)) 2 (some 7)
        { bus := [0x10, 0x20, 0x62], trace := [] }).2.2.1
          = some (scan_hits probe_bus (fun _ => 0xFF) 2 7
            { bus := [0x10, 0x20, 0x62], trace := [] }).length ∧
      (∃ mem', (scd4x_scan probe_bus (some (fun _ => 0xFF)) 2 (some 7)
          { bus := [0x10, 0x20, 0x62], trace := [] }).2.1 = some mem' ∧
        (∀ i, i < 2 → mem' i = (scan_hits probe_bus (fun _ => 0xFF) 2 7
          { bus := [0x10, 0x20, 0x62], trace := [] }).getD i 0) ∧
        (∀ i, 2 ≤ i → mem' i = (fun _ => 0xFF) i)) ∧
      List.Pairwise (fun a b => a < b) (scan_hits probe_bus (fun _ => 0xFF) 2 7
        { bus := [0x10, 0x20, 0x62], trace := [] }) ∧
      (∀ a ∈ scan_hits probe_bus (fun _ => 0xFF) 2 7
        { bus := [0x10, 0x20, 0x62], trace := [] }, 0x03 ≤ a ∧ a ≤ 0x77)) :=
  ⟨by decide, scan_reports_probe_count probe_bus _ _ 7 2 (by decide) (by decide)⟩

set_option maxRecDepth 100000 in
/-- The count reported by `scd4x_scan` is the number of its successful probes, which
need not be the number of devices present: with devices at the 7-bit addresses 0x62
and 0x63 (HAL address bytes 0xC4 and 0xC6) and capacity 1, the scan returns Ok with
`*out_count = 0`. -/
theorem scan_count_is_not_device_count :
    responding_addresses probe_bus [0xC4, 0xC6] = [0x62, 0x63] ∧
      (scd4x_scan probe_bus (some (fun _ => 0)) 1 (some 7)
        { bus := [0xC4, 0xC6], trace := [] }).1 = Scd4xStatus.Ok ∧
      (scd4x_scan probe_bus (some (fun _ => 0)) 1 (some 7)
        { bus := [0xC4, 0xC6], trace := [] }).2.2.1 = some 0 ∧
      scan_hits probe_bus (fun _ => 0) 1 7 { bus := [0xC4, 0xC6], trace := [] } = [] := by
  decide

/-! ## C9: a poll that does not return Ok -/

theorem on_poll_failed_fields (st : Scd4xStatus) (reading : Scd4xReading) (app : Scd41App)
    (h : st ≠ Scd4xStatus.Ok) :
    (scd41_app_on_poll st reading app).co2_history = app.co2_history ∧
      (scd41_app_on_poll st reading app).history_index = app.history_index ∧
      (scd41_app_on_poll st reading app).history_count = app.history_count ∧
      (scd41_app_on_poll st reading app).co2_ppm = app.co2_ppm ∧
      (scd41_app_on_poll st reading app).temp_c_x100 = app.temp_c_x100 ∧
      (scd41_app_on_poll st reading app).rh_x100 = app.rh_x100 := by
  simp only [scd41_app_on_poll, if_neg h]
  split_ifs <;> simp

/-- C9: when the driver result of a poll is not Ok, the timer callback leaves
`co2_history`, `history_index`, `history_count`, `co2_ppm`, `temp_c_x100` and
`rh_x100` unchanged (of the modelled fields only `sensor_ok` and `status` may
change). -/
theorem failed_poll_keeps_readings (hal : Hal σ) (app : Scd41App) (w : World σ)
    (h : (scd4x_read_measurement hal (some reading_zero) w).1 ≠ Scd4xStatus.Ok) :
    (scd41_app_timer_cb hal app w).1.co2_history = app.co2_history ∧
      (scd41_app_timer_cb hal app w).1.history_index = app.history_index ∧
      (scd41_app_timer_cb hal app w).1.history_count = app.history_count ∧
      (scd41_app_timer_cb hal app w).1.co2_ppm = app.co2_ppm ∧
      (scd41_app_timer_cb hal app w).1.temp_c_x100 = app.temp_c_x100 ∧
      (scd41_app_timer_cb hal app w).1.rh_x100 = app.rh_x100 :=
  on_poll_failed_fields _ _ app h

theorem failed_poll_keeps_readings_witness :
    (scd4x_read_measurement script_bus (some reading_zero)
        { bus := [[0x80, 0x00, 0x00]], trace := [] }).1 ≠ Scd4xStatus.Ok ∧
    ((scd41_app_timer_cb script_bus app_zero { bus := [[0x80, 0x00, 0x00]], trace := [] }).1.co2_history
        = app_zero.co2_history ∧
      (scd41_app_timer_cb script_bus app_zero
        { bus := [[0x80, 0x00, 0x00]], trace := [] }).1.history_index = app_zero.history_index ∧
      (scd41_app_timer_cb script_bus app_zero
        { bus := [[0x80, 0x00, 0x00]], trace := [] }).1.history_count = app_zero.history_count ∧
      (scd41_app_timer_cb script_bus app_zero
        { bus := [[0x80, 0x00, 0x00]], trace := [] }).1.co2_ppm = app_zero.co2_ppm ∧
      (scd41_app_timer_cb script_bus app_zero
        { bus := [[0x80, 0x00, 0x00]], trace := [] }).1.temp_c_x100 = app_zero.temp_c_x100 ∧
      (scd41_app_timer_cb script_bus app_zero
        { bus := [[0x80, 0x00, 0x00]], trace := [] }).1.rh_x100 = app_zero.rh_x100) :=
  ⟨by decide, failed_poll_keeps_readings script_bus app_zero _ (by decide)⟩

/-! ## C10: start, five not-ready polls, one reading -/

theorem start_ok_fields (hal : Hal σ) (mem : Scd41App) (w : World σ)
    (h : (scd4x_start_periodic_measurement hal w).1 = Scd4xStatus.Ok) :
    (scd41_app_start hal mem w).1.history_index = 0 ∧
      (scd41_app_start hal mem w).1.history_count = 0 ∧
      (scd41_app_start hal mem w).1.sensor_ok = true := by
  simp [scd41_app_start, h]

theorem waiting_keeps_empty (hal : Hal σ) (a : Scd41App × World σ) (k : Nat)
    (h0 : a.1.history_index = 0 ∧ a.1.history_count = 0)
    (hwait : ∀ j, j < k →
      (scd4x_read_measurement hal (some reading_zero) ((tick hal)^[j] a).2).1
        = Scd4xStatus.NotReady) :
    ((tick hal)^[k] a).1.history_index = 0 ∧ ((tick hal)^[k] a).1.history_count = 0 := by
  induction k with
  | zero => exact h0
  | succ k ih =>
    have hk := ih (fun j hj => hwait j (by omega))
    have hnr := hwait k (by omega)
    have hne : (scd4x_read_measurement hal (some reading_zero) ((tick hal)^[k] a).2).1
        ≠ Scd4xStatus.Ok := by
      rw [hnr]
      decide
    have hkeep := on_poll_failed_fields _
      ((scd4x_read_measurement hal (some reading_zero) ((tick hal)^[k] a).2).2.1.getD
        reading_zero) ((tick hal)^[k] a).1 hne
    rw [Function.iterate_succ_apply']
    exact ⟨by rw [tick, scd41_app_timer_cb, hkeep.2.1, hk.1],
      by rw [tick, scd41_app_timer_cb, hkeep.2.2.1, hk.2]⟩

/-- C10: from the state after a successful start, five polls that return NotReady
followed by one poll that returns Ok with CO2 = 800 leave `sensor_ok = true`,
`history_count = 1`, the single plotted history entry (slot 0) equal to 800,
`co2_ppm = 800` and an empty status string. -/
theorem five_waits_then_reading (hal : Hal σ) (mem : Scd41App) (w : World σ)
    (hstart : (scd4x_start_periodic_measurement hal w).1 = Scd4xStatus.Ok)
    (hwait : ∀ j, j < 5 →
      (scd4x_read_measurement hal (some reading_zero)
        ((tick hal)^[j] (scd41_app_start hal mem w)).2).1 = Scd4xStatus.NotReady)
    (hok : (scd4x_read_measurement hal (some reading_zero)
        ((tick hal)^[5] (scd41_app_start hal mem w)).2).1 = Scd4xStatus.Ok)
    (hco2 : ((scd4x_read_measurement hal (some reading_zero)
        ((tick hal)^[5] (scd41_app_start hal mem w)).2).2.1.getD reading_zero).co2_ppm = 800) :
    ((tick hal)^[6] (scd41_app_start hal mem w)).1.sensor_ok = true ∧
      ((tick hal)^[6] (scd41_app_start hal mem w)).1.history_count = 1 ∧
      scd41_draw_samples ((tick hal)^[6] (scd41_app_start hal mem w)).1 = [800] ∧
      ((tick hal)^[6] (scd41_app_start hal mem w)).1.co2_history 0 = 800 ∧
      ((tick hal)^[6] (scd41_app_start hal mem w)).1.co2_ppm = 800 ∧
      ((tick hal)^[6] (scd41_app_start hal mem w)).1.status = "" := by
  have hs := start_ok_fields hal mem w hstart
  have h5 := waiting_keeps_empty hal (scd41_app_start hal mem w) 5 ⟨hs.1, hs.2.1⟩ hwait
  have hstep : (tick hal)^[6] (scd41_app_start hal mem w)
      = tick hal ((tick hal)^[5] (scd41_app_start hal mem w)) :=
    Function.iterate_succ_apply' _ _ _
  obtain ⟨fh, fi, fc, fco2, fok, fst⟩ := on_poll_ok_fields
    ((scd4x_read_measurement hal (some reading_zero)
      ((tick hal)^[5] (scd41_app_start hal mem w)).2).2.1.getD reading_zero)
    ((tick hal)^[5] (scd41_app_start hal mem w)).1
  rw [hstep]
  simp only [tick, scd41_app_timer_cb, hok]
  rw [h5.1, hco2] at fh
  rw [h5.1] at fi
  rw [h5.2] at fc
  rw [hco2] at fco2
  have hcount : (scd41_app_on_poll Scd4xStatus.Ok
      ((scd4x_read_measurement hal (some reading_zero)
        ((tick hal)^[5] (scd41_app_start hal mem w)).2).2.1.getD reading_zero)
      ((tick hal)^[5] (scd41_app_start hal mem w)).1).history_count = 1 := by
    rw [fc]
    decide
  refine ⟨fok, hcount, ?_, by rw [fh]; simp, fco2, fst⟩
  have hsi : scd41_draw_start_idx (scd41_app_on_poll Scd4xStatus.Ok
      ((scd4x_read_measurement hal (some reading_zero)
        ((tick hal)^[5] (scd41_app_start hal mem w)).2).2.1.getD reading_zero)
      ((tick hal)^[5] (scd41_app_start hal mem w)).1) = 0 := by
    rw [scd41_draw_start_idx, fi, hcount]
    decide
  rw [scd41_draw_samples, hcount, scd41_draw_vals, scd41_draw_vals, hsi, fh]
  simp [u8, HISTORY_SIZE]

theorem five_waits_then_reading_witness :
    ((scd4x_start_periodic_measurement script_bus warmup_world).1 = Scd4xStatus.Ok ∧
      (∀ j, j < 5 →
        (scd4x_read_measurement script_bus (some reading_zero)
          ((tick script_bus)^[j] (scd41_app_start script_bus app_zero warmup_world)).2).1
            = Scd4xStatus.NotReady) ∧
      (scd4x_read_measurement script_bus (some reading_zero)
        ((tick script_bus)^[5] (scd41_app_start script_bus app_zero warmup_world)).2).1
          = Scd4xStatus.Ok ∧
      ((scd4x_read_measurement script_bus (some reading_zero)
        ((tick script_bus)^[5] (scd41_app_start script_bus app_zero warmup_world)).2).2.1.getD
          reading_zero).co2_ppm = 800) ∧
    (((tick script_bus)^[6] (scd41_app_start script_bus app_zero warmup_world)).1.sensor_ok
        = true ∧
      ((tick script_bus)^[6] (scd41_app_start script_bus app_zero warmup_world)).1.history_count
        = 1 ∧
      scd41_draw_samples ((tick script_bus)^[6]
        (scd41_app_start script_bus app_zero warmup_world)).1 = [800] ∧
      ((tick script_bus)^[6] (scd41_app_start script_bus app_zero warmup_world)).1.co2_history 0
        = 800 ∧
      ((tick script_bus)^[6] (scd41_app_start script_bus app_zero warmup_world)).1.co2_ppm
        = 800 ∧
      ((tick script_bus)^[6] (scd41_app_start script_bus app_zero warmup_world)).1.status
        = "") :=
  ⟨by decide, five_waits_then_reading script_bus app_zero warmup_world
    (by decide) (by decide) (by decide) (by decide)⟩

/-! ## C11: the sample measurement 21000 / 28000 -/

/-- C11, as stated, fails: the valid measurement with raw temperature word 21000
and raw humidity word 28000 stores `temp_c_x100 = 1107`, not `1114`. -/
theorem sample_temp_is_not_1114 :
    (scd4x_read_measurement script_bus (some reading_zero)
        (sample_world 0x8006 800 21000 28000)).1 = Scd4xStatus.Ok ∧
      raw_word (measurement_rx script_bus (sample_world 0x8006 800 21000 28000)) 3 = 21000 ∧
      raw_word (measurement_rx script_bus (sample_world 0x8006 800 21000 28000)) 6 = 28000 ∧
      (scd4x_read_measurement script_bus (some reading_zero)
        (sample_world 0x8006 800 21000 28000)).2.1
          = some { co2_ppm := 800, temp_c_x100 := 1107, rh_x100 := 4272 } ∧
      (1107 : Int) ≠ 1114 := by
  decide

/-- C11 (amended): a valid measurement with raw temperature word 21000 and raw
humidity word 28000 decodes to `temp_c_x100 = 1107` (11.07 °C) and
`rh_x100 = 4272` (42.72 %). -/
theorem sample_decodes_to_1107_4272 (hal : Hal σ) (w : World σ) (o : Scd4xReading)
    (h : (scd4x_read_measurement hal (some o) w).1 = Scd4xStatus.Ok)
    (ht : raw_word (measurement_rx hal w) 3 = 21000)
    (hh : raw_word (measurement_rx hal w) 6 = 28000) :
    ∃ r, (scd4x_read_measurement hal (some o) w).2.1 = some r ∧
      r.temp_c_x100 = 1107 ∧ r.rh_x100 = 4272 := by
  refine ⟨_, read_measurement_ok_out hal o w h, ?_, ?_⟩
  · rw [decode_eq _ (measurement_rx_lt hal w)]
    show -4500 + 17500 * ((raw_word (measurement_rx hal w) 3 : Nat) : Int) / 65536 = 1107
    rw [ht]
    decide
  · rw [decode_eq _ (measurement_rx_lt hal w)]
    show 10000 * ((raw_word (measurement_rx hal w) 6 : Nat) : Int) / 65536 = 4272
    rw [hh]
    decide

theorem sample_decodes_to_1107_4272_witness :
    ((scd4x_read_measurement script_bus (some reading_zero)
        (sample_world 0x8006 800 21000 28000)).1 = Scd4xStatus.Ok ∧
      raw_word (measurement_rx script_bus (sample_world 0x8006 800 21000 28000)) 3 = 21000 ∧
      raw_word (measurement_rx script_bus (sample_world 0x8006 800 21000 28000)) 6 = 28000) ∧
    (∃ r, (scd4x_read_measurement script_bus (some reading_zero)
        (sample_world 0x8006 800 21000 28000)).2.1 = some r ∧
      r.temp_c_x100 = 1107 ∧ r.rh_x100 = 4272) :=
  ⟨by decide, sample_decodes_to_1107_4272 script_bus _ reading_zero
    (by decide) (by decide) (by decide)⟩

/-! ## C20: range and monotonicity of the decoded values -/

theorem i32_of_range (x : Int) (h1 : -2147483648 ≤ x) (h2 : x < 2147483648) : i32 x = x := by
  unfold i32
  omega

theorem temp_i32_eq (T : Nat) (hT : T < 65536) :
    scd4x_temp_i32 T = -4500 + (17500 * (T : Int)) / 65536 := by
  unfold scd4x_temp_i32
  rw [Int.tdiv_eq_ediv (by positivity) (by norm_num), i32_of_range _ (by omega) (by omega)]

theorem rh_i32_eq (H : Nat) (hH : H < 65536) :
    scd4x_rh_i32 H = (10000 * (H : Int)) / 65536 := by
  unfold scd4x_rh_i32
  rw [Int.tdiv_eq_ediv (by positivity) (by norm_num), i32_of_range _ (by omega) (by omega)]

/-- C20: for raw 16-bit words `T`, `H` (and `T ≤ T'`, `H ≤ H'`), the 32-bit
intermediates of `scd4x_read_measurement` are `-4500 + floor(17500*T/65536)`, in
`[-4500, 12999]`, and `floor(10000*H/65536)`, in `[0, 9999]`; the casts to `int16_t`
do not change them, they are the values stored in the reading, and both are
non-decreasing in the raw word. -/
theorem decoded_values_fit_int16 (T H T' H' : Nat) (hT : T' < 65536) (hH : H' < 65536)
    (hTT : T ≤ T') (hHH : H ≤ H') :
    (scd4x_temp_i32 T = -4500 + ⌊(17500 : ℚ) * (T : ℚ) / 65536⌋ ∧
      -4500 ≤ scd4x_temp_i32 T ∧ scd4x_temp_i32 T ≤ 12999) ∧
    (scd4x_rh_i32 H = ⌊(10000 : ℚ) * (H : ℚ) / 65536⌋ ∧
      0 ≤ scd4x_rh_i32 H ∧ scd4x_rh_i32 H ≤ 9999) ∧
    (i16 (scd4x_temp_i32 T) = scd4x_temp_i32 T ∧ i16 (scd4x_rh_i32 H) = scd4x_rh_i32 H) ∧
    (∀ rx : Nat → Nat, (∀ i, rx i < 256) → raw_word rx 3 = T → raw_word rx 6 = H →
      (scd4x_decode rx).temp_c_x100 = scd4x_temp_i32 T ∧
      (scd4x_decode rx).rh_x100 = scd4x_rh_i32 H) ∧
    (scd4x_temp_i32 T ≤ scd4x_temp_i32 T' ∧ scd4x_rh_i32 H ≤ scd4x_rh_i32 H') := by
  have hT0 : T < 65536 := by omega
  have hH0 : H < 65536 := by omega
  have eT := temp_i32_eq T hT0
  have eH := rh_i32_eq H hH0
  have eT' := temp_i32_eq T' hT
  have eH' := rh_i32_eq H' hH
  have fT : ⌊(17500 : ℚ) * (T : ℚ) / 65536⌋ = (17500 * (T : Int)) / 65536 := by
    have e : (17500 : ℚ) * (T : ℚ) / 65536 =
        ((17500 * (T : Int) : Int) : ℚ) / ((65536 : Nat) : ℚ) := by
      push_cast
      ring
    rw [e, Rat.floor_intCast_div_natCast]
    push_cast
    rfl
  have hTi : (T : Int) ≤ (T' : Int) := by exact_mod_cast hTT
  have hHi : (H : Int) ≤ (H' : Int) := by exact_mod_cast hHH
  have a6 : scd4x_temp_i32 T ≤ scd4x_temp_i32 T' := by
    rw [eT, eT']
    exact Int.add_le_add_left (Int.ediv_le_ediv (by norm_num) (by omega)) _
  have a7 : scd4x_rh_i32 H ≤ scd4x_rh_i32 H' := by
    rw [eH, eH']
    exact Int.ediv_le_ediv (by norm_num) (by omega)
  refine ⟨⟨by rw [eT, fT], by omega, by omega⟩, ⟨by rw [eH, floor_rh], by omega, by omega⟩,
    ⟨i16_of_range _ (by omega) (by omega), i16_of_range _ (by omega) (by omega)⟩, ?_,
    ⟨a6, a7⟩⟩
  intro rx hrx h3 h6
  rw [decode_eq rx hrx, h3, h6, eT, eH]
  exact ⟨rfl, rfl⟩

theorem decoded_values_fit_int16_witness :
    ((65535 : Nat) < 65536 ∧ (65535 : Nat) < 65536 ∧ (21000 : Nat) ≤ 65535 ∧
      (28000 : Nat) ≤ 65535) ∧
    ((scd4x_temp_i32 21000 = -4500 + ⌊(17500 : ℚ) * ((21000 : Nat) : ℚ) / 65536⌋ ∧
      -4500 ≤ scd4x_temp_i32 21000 ∧ scd4x_temp_i32 21000 ≤ 12999) ∧
    (scd4x_rh_i32 28000 = ⌊(10000 : ℚ) * ((28000 : Nat) : ℚ) / 65536⌋ ∧
      0 ≤ scd4x_rh_i32 28000 ∧ scd4x_rh_i32 28000 ≤ 9999) ∧
    (i16 (scd4x_temp_i32 21000) = scd4x_temp_i32 21000 ∧
      i16 (scd4x_rh_i32 28000) = scd4x_rh_i32 28000) ∧
    (∀ rx : Nat → Nat, (∀ i, rx i < 256) → raw_word rx 3 = 21000 → raw_word rx 6 = 28000 →
      (scd4x_decode rx).temp_c_x100 = scd4x_temp_i32 21000 ∧
      (scd4x_decode rx).rh_x100 = scd4x_rh_i32 28000) ∧
    (scd4x_temp_i32 21000 ≤ scd4x_temp_i32 65535 ∧
      scd4x_rh_i32 28000 ≤ scd4x_rh_i32 65535)) :=
  ⟨by decide, decoded_values_fit_int16 21000 28000 65535 65535
    (by decide) (by decide) (by decide) (by decide)⟩

/-! ## C13: starting the periodic measurement -/

theorem start_cmd_bytes :
    [u8 (CMD_START_PERIODIC_MEASUREMENT >>> 8), u8 (CMD_START_PERIODIC_MEASUREMENT &&& 0xFF)]
      = [0x21, 0xB1] := by decide

/-- C13: `scd4x_start_periodic_measurement` returns BusError without any transmit
when the presence probe at the sensor address fails; otherwise it transmits exactly
the two bytes `[0x21, 0xB1]` to the sensor address, makes no receive, and returns
Ok when that transmit succeeds and BusError when it fails. -/
theorem start_probes_then_sends (hal : Hal σ) (w : World σ) :
    ((hal.is_device_ready SCD4X_ADDR 50 (hal.acquire (hal.delay_ms 30 w.bus))).1 = false →
      (scd4x_start_periodic_measurement hal w).1 = Scd4xStatus.I2c ∧
      (scd4x_start_periodic_measurement hal w).2.trace = w.trace ++
        [BusEvent.delay_ms 30, BusEvent.acquire,
          BusEvent.is_device_ready SCD4X_ADDR 50 false, BusEvent.release]) ∧
    ((hal.is_device_ready SCD4X_ADDR 50 (hal.acquire (hal.delay_ms 30 w.bus))).1 = true →
      ∃ ok : Bool,
        (scd4x_start_periodic_measurement hal w).1
          = (if ok then Scd4xStatus.Ok else Scd4xStatus.I2c) ∧
        (scd4x_start_periodic_measurement hal w).2.trace = w.trace ++
          [BusEvent.delay_ms 30, BusEvent.acquire,
            BusEvent.is_device_ready SCD4X_ADDR 50 true, BusEvent.release,
            BusEvent.acquire, BusEvent.tx SCD4X_ADDR [0x21, 0xB1] 50 ok,
            BusEvent.release]) := by
  constructor
  · intro hp
    simp [scd4x_start_periodic_measurement, furi_delay_ms, furi_hal_i2c_acquire,
      furi_hal_i2c_is_device_ready, furi_hal_i2c_release, hp]
  · intro hp
    refine ⟨(hal.tx SCD4X_ADDR [0x21, 0xB1] 50 (hal.acquire (hal.release
      (hal.is_device_ready SCD4X_ADDR 50 (hal.acquire (hal.delay_ms 30 w.bus))).2))).1, ?_⟩
    simp [scd4x_start_periodic_measurement, scd4x_write_cmd, furi_delay_ms,
      furi_hal_i2c_acquire, furi_hal_i2c_is_device_ready, furi_hal_i2c_release,
      furi_hal_i2c_tx, hp, start_cmd_bytes]

/-! ## C14: bracketing of the HAL calls -/

theorem emits_refl (w : World σ) (p : BusPhase) : Emits w w p p :=
  ⟨[], by simp, rfl⟩

theorem bus_run_append (p : BusPhase) (a b : List BusEvent) :
    bus_run p (a ++ b) = (bus_run p a).bind (fun q => bus_run q b) := by
  induction a generalizing p with
  | nil => rfl
  | cons e rest ih =>
    simp only [List.cons_append, bus_run]
    cases bus_step p e with
    | none => rfl
    | some q => exact ih q

theorem emits_trans {w1 w2 w3 : World σ} {p q r : BusPhase}
    (h1 : Emits w1 w2 p q) (h2 : Emits w2 w3 q r) : Emits w1 w3 p r := by
  obtain ⟨e1, t1, r1⟩ := h1
  obtain ⟨e2, t2, r2⟩ := h2
  exact ⟨e1 ++ e2, by rw [t2, t1, List.append_assoc], by rw [bus_run_append, r1]; exact r2⟩

theorem emits_acquire (hal : Hal σ) (w : World σ) :
    Emits w (furi_hal_i2c_acquire hal w) BusPhase.free BusPhase.held :=
  ⟨[BusEvent.acquire], rfl, rfl⟩

theorem emits_release (hal : Hal σ) (w : World σ) :
    Emits w (furi_hal_i2c_release hal w) BusPhase.held BusPhase.free :=
  ⟨[BusEvent.release], rfl, rfl⟩

theorem emits_release_failed (hal : Hal σ) (w : World σ) :
    Emits w (furi_hal_i2c_release hal w) BusPhase.held_tx_failed BusPhase.free :=
  ⟨[BusEvent.release], rfl, rfl⟩

theorem emits_delay (hal : Hal σ) (ms : Nat) (w : World σ) (p : BusPhase) :
    Emits w (furi_delay_ms hal ms w) p p :=
  ⟨[BusEvent.delay_ms ms], rfl, by cases p <;> rfl⟩

theorem emits_probe (hal : Hal σ) (addr timeout : Nat) (w : World σ) :
    Emits w (furi_hal_i2c_is_device_ready hal addr timeout w).2 BusPhase.held BusPhase.held :=
  ⟨[BusEvent.is_device_ready addr timeout (hal.is_device_ready addr timeout w.bus).1],
    rfl, rfl⟩

theorem emits_tx (hal : Hal σ) (addr : Nat) (data : List Nat) (timeout : Nat) (w : World σ) :
    Emits w (furi_hal_i2c_tx hal addr data timeout w).2 BusPhase.held
      (if (furi_hal_i2c_tx hal addr data timeout w).1 then BusPhase.held
        else BusPhase.held_tx_failed) := by
  refine ⟨[BusEvent.tx addr data timeout (hal.tx addr data timeout w.bus).1], rfl, ?_⟩
  simp only [furi_hal_i2c_tx, bus_run, bus_step]
  by_cases h : (hal.tx addr data timeout w.bus).1 = true
  · simp [h]
  · simp [h]

theorem emits_rx (hal : Hal σ) (addr : Nat) (buf : Nat → Nat) (len timeout : Nat)
    (w : World σ) :
    Emits w (furi_hal_i2c_rx hal addr buf len timeout w).2.2 BusPhase.held BusPhase.held :=
  ⟨[BusEvent.rx addr len timeout (hal.rx addr len timeout w.bus).1], rfl, rfl⟩

theorem emits_write_cmd (hal : Hal σ) (cmd : Nat) (w : World σ) :
    Emits w (scd4x_write_cmd hal cmd w).2 BusPhase.free BusPhase.free := by
  have ha := emits_acquire hal w
  have ht := emits_tx hal SCD4X_ADDR [u8 (cmd >>> 8), u8 (cmd &&& 0xFF)] 50
    (furi_hal_i2c_acquire hal w)
  simp only [scd4x_write_cmd]
  cases hok : (furi_hal_i2c_tx hal SCD4X_ADDR [u8 (cmd >>> 8), u8 (cmd &&& 0xFF)] 50
      (furi_hal_i2c_acquire hal w)).1
  · rw [hok] at ht
    exact emits_trans (emits_trans ha ht) (emits_release_failed hal _)
  · rw [hok] at ht
    exact emits_trans (emits_trans ha ht) (emits_release hal _)

theorem emits_read_words (hal : Hal σ) (cmd : Nat) (rx : Nat → Nat) (len : Nat)
    (w : World σ) :
    Emits w (scd4x_read_words hal cmd rx len w).2.2 BusPhase.free BusPhase.free := by
  have ha := emits_acquire hal w
  have ht := emits_tx hal SCD4X_ADDR [u8 (cmd >>> 8), u8 (cmd &&& 0xFF)] 50
    (furi_hal_i2c_acquire hal w)
  simp only [scd4x_read_words]
  cases hok : (furi_hal_i2c_tx hal SCD4X_ADDR [u8 (cmd >>> 8), u8 (cmd &&& 0xFF)] 50
      (furi_hal_i2c_acquire hal w)).1
  · rw [hok] at ht
    have := emits_trans (emits_trans ha ht) (emits_release_failed hal _)
    simpa using this
  · rw [hok] at ht
    have h2 := emits_trans (emits_trans ha ht) (emits_delay hal 2 _ BusPhase.held)
    have h3 := emits_trans h2 (emits_rx hal SCD4X_ADDR rx len 50 _)
    have h4 := emits_trans h3 (emits_release hal _)
    simp only [if_true]
    split_ifs <;> exact h4

theorem emits_get_data_ready (hal : Hal σ) (ready : Bool) (w : World σ) :
    Emits w (scd4x_get_data_ready hal ready w).2.2 BusPhase.free BusPhase.free := by
  have h := emits_read_words hal CMD_GET_DATA_READY_STATUS (fun _ => 0) 3 w
  simp only [scd4x_get_data_ready]
  split_ifs <;> exact h

theorem emits_read_measurement (hal : Hal σ) (out : Option Scd4xReading) (w : World σ) :
    Emits w (scd4x_read_measurement hal out w).2.2 BusPhase.free BusPhase.free := by
  cases out with
  | none => exact emits_refl w _
  | some o =>
    have hg := emits_get_data_ready hal false w
    have hr := emits_trans hg (emits_read_words hal CMD_READ_MEASUREMENT (fun _ => 0) 9
      (scd4x_get_data_ready hal false w).2.2)
    simp only [scd4x_read_measurement]
    split_ifs
    · exact hg
    · exact hg
    · exact hr
    · exact hr
    · exact hr

theorem emits_start (hal : Hal σ) (w : World σ) :
    Emits w (scd4x_start_periodic_measurement hal w).2 BusPhase.free BusPhase.free := by
  have h1 := emits_delay hal 30 w BusPhase.free
  have h2 := emits_trans h1 (emits_acquire hal _)
  have h3 := emits_trans h2 (emits_probe hal SCD4X_ADDR 50 _)
  have h4 := emits_trans h3 (emits_release hal _)
  have h5 := emits_trans h4 (emits_write_cmd hal CMD_START_PERIODIC_MEASUREMENT _)
  simp only [scd4x_start_periodic_measurement]
  split_ifs
  · exact h4
  · exact h5

theorem emits_stop (hal : Hal σ) (w : World σ) :
    Emits w (scd4x_stop_periodic_measurement hal w).2 BusPhase.free BusPhase.free :=
  emits_trans (emits_write_cmd hal CMD_STOP_PERIODIC_MEASUREMENT w)
    (emits_delay hal 500 _ BusPhase.free)

theorem emits_scan_loop (hal : Hal σ) (cap n : Nat) :
    ∀ (addr : Nat) (mem : Nat → Nat) (found : Nat) (w : World σ),
      Emits w (scd4x_scan_loop hal cap n addr mem found w).2.2 BusPhase.held BusPhase.held := by
  induction n with
  | zero =>
    intro addr mem found w
    exact emits_refl w _
  | succ n ih =>
    intro addr mem found w
    rw [scd4x_scan_loop]
    exact emits_trans (emits_trans (emits_probe hal addr 20 w) (emits_delay hal 1 _ _))
      (ih _ _ _ _)

theorem emits_scan (hal : Hal σ) (addrs : Option (Nat → Nat)) (cap : Nat)
    (cnt : Option Nat) (w : World σ) :
    Emits w (scd4x_scan hal addrs cap cnt w).2.2.2 BusPhase.free BusPhase.free := by
  cases addrs with
  | none => exact emits_refl w _
  | some mem =>
    cases cnt with
    | none => exact emits_refl w _
    | some c =>
      by_cases hcap : cap = 0
      · simp only [scd4x_scan, Option.map_some', hcap, if_true]
        exact emits_refl w _
      · simp only [scd4x_scan, Option.map_some', hcap, if_false]
        exact emits_trans (emits_trans (emits_acquire hal w) (emits_scan_loop hal cap _ _ _ _ _))
          (emits_release hal _)

theorem emits_well_bracketed {w1 w2 : World σ}
    (h : Emits w1 w2 BusPhase.free BusPhase.free) :
    ∃ ev, w2.trace = w1.trace ++ ev ∧ well_bracketed ev = true := by
  obtain ⟨ev, ht, hr⟩ := h
  exact ⟨ev, ht, by simp [well_bracketed, hr]⟩

/-- C14: for every bus, the HAL calls emitted by `scd4x_start_periodic_measurement`,
`scd4x_stop_periodic_measurement`, `scd4x_read_measurement` and `scd4x_scan` form a
well-bracketed trace: every probe, transmit and receive lies between an acquire and
its release, acquires are not nested, the bus is released when the operation
returns, and after a failed transmit nothing but the release follows in that
exchange. -/
theorem driver_traces_well_bracketed (hal : Hal σ) (w : World σ)
    (out : Option Scd4xReading) (addrs : Option (Nat → Nat)) (cap : Nat) (cnt : Option Nat) :
    (∃ ev, (scd4x_start_periodic_measurement hal w).2.trace = w.trace ++ ev ∧
      well_bracketed ev = true) ∧
    (∃ ev, (scd4x_stop_periodic_measurement hal w).2.trace = w.trace ++ ev ∧
      well_bracketed ev = true) ∧
    (∃ ev, (scd4x_read_measurement hal out w).2.2.trace = w.trace ++ ev ∧
      well_bracketed ev = true) ∧
    (∃ ev, (scd4x_scan hal addrs cap cnt w).2.2.2.trace = w.trace ++ ev ∧
      well_bracketed ev = true) :=
  ⟨emits_well_bracketed (emits_start hal w), emits_well_bracketed (emits_stop hal w),
    emits_well_bracketed (emits_read_measurement hal out w),
    emits_well_bracketed (emits_scan hal addrs cap cnt w)⟩

/-! ## The scaling bounds of the graph -/

theorem minmax_loop_spec (app : Scd41App) (n : Nat) :
    ∀ (i mn mx : Nat), i + n ≤ 255 →
      ((scd41_draw_minmax_loop app n i mn mx).1 = mn ∨
          ∃ k, k < n ∧ (scd41_draw_minmax_loop app n i mn mx).1 = app.co2_history (i + k)) ∧
        (scd41_draw_minmax_loop app n i mn mx).1 ≤ mn ∧
        (∀ k, k < n → (scd41_draw_minmax_loop app n i mn mx).1 ≤ app.co2_history (i + k)) ∧
        ((scd41_draw_minmax_loop app n i mn mx).2 = mx ∨
          ∃ k, k < n ∧ (scd41_draw_minmax_loop app n i mn mx).2 = app.co2_history (i + k)) ∧
        mx ≤ (scd41_draw_minmax_loop app n i mn mx).2 ∧
        (∀ k, k < n → app.co2_history (i + k) ≤ (scd41_draw_minmax_loop app n i mn mx).2) := by
  induction n with
  | zero =>
    intro i mn mx _
    simp [scd41_draw_minmax_loop]
  | succ n ih =>
    intro i mn mx hle
    have hnext : u8 (i + 1) = i + 1 := by
      unfold u8
      omega
    rw [scd41_draw_minmax_loop, hnext]
    obtain ⟨a1, a2, a3, b1, b2, b3⟩ := ih (i + 1)
      (if app.co2_history i < mn then app.co2_history i else mn)
      (if app.co2_history i > mx then app.co2_history i else mx) (by omega)
    have hshift : ∀ k, i + 1 + k = i + (k + 1) := fun k => by omega
    refine ⟨?_, ?_, ?_, ?_, ?_, ?_⟩
    · rcases a1 with h | ⟨k, hk, h⟩
      · by_cases hc : app.co2_history i < mn
        · right
          exact ⟨0, by omega, by rw [h, if_pos hc]; rfl⟩
        · left
          rw [h, if_neg hc]
      · right
        exact ⟨k + 1, by omega, by rw [h, hshift]⟩
    · refine le_trans a2 ?_
      split_ifs <;> omega
    · intro k hk
      cases k with
      | zero =>
        refine le_trans a2 ?_
        show _ ≤ app.co2_history (i + 0)
        rw [Nat.add_zero]
        split_ifs <;> omega
      | succ k =>
        have := a3 k (by omega)
        rwa [hshift] at this
    · rcases b1 with h | ⟨k, hk, h⟩
      · by_cases hc : app.co2_history i > mx
        · right
          exact ⟨0, by omega, by rw [h, if_pos hc]; rfl⟩
        · left
          rw [h, if_neg hc]
      · right
        exact ⟨k + 1, by omega, by rw [h, hshift]⟩
    · refine le_trans ?_ b2
      split_ifs <;> omega
    · intro k hk
      cases k with
      | zero =>
        refine le_trans ?_ b2
        show app.co2_history (i + 0) ≤ _
        rw [Nat.add_zero]
        split_ifs <;> omega
      | succ k =>
        have := b3 k (by omega)
        rwa [hshift] at this

theorem minmax_spec (app : Scd41App) (hpos : 0 < app.history_count)
    (h256 : app.history_count < 256) :
    (∃ k, k < app.history_count ∧ (scd41_draw_minmax app).1 = app.co2_history k) ∧
      (∀ k, k < app.history_count → (scd41_draw_minmax app).1 ≤ app.co2_history k) ∧
      (∃ k, k < app.history_count ∧ (scd41_draw_minmax app).2 = app.co2_history k) ∧
      (∀ k, k < app.history_count → app.co2_history k ≤ (scd41_draw_minmax app).2) := by
  obtain ⟨a1, -, a3, b1, -, b3⟩ := minmax_loop_spec app app.history_count 0
    (app.co2_history 0) (app.co2_history 0) (by omega)
  simp only [Nat.zero_add] at a1 a3 b1 b3
  refine ⟨?_, a3, ?_, b3⟩
  · rcases a1 with h | h
    · exact ⟨0, hpos, h⟩
    · exact h
  · rcases b1 with h | h
    · exact ⟨0, hpos, h⟩
    · exact h

theorem pad_range (m M : Nat) (hmM : m ≤ M) (hM : M < 65536) :
    100 ≤ u16_of_int (((scd41_draw_pad m M).2 : Int) - ((scd41_draw_pad m M).1 : Int)) ∧
      u16_of_int (((scd41_draw_pad m M).2 : Int) - ((scd41_draw_pad m M).1 : Int)) < 65536 := by
  simp only [scd41_draw_pad, u16_of_int, u16]
  split_ifs <;> simp only [] <;> omega

theorem pad_range_flat (V : Nat) (hV : V < 65536) :
    u16_of_int (((scd41_draw_pad V V).2 : Int) - ((scd41_draw_pad V V).1 : Int)) = 100 := by
  simp only [scd41_draw_pad, u16_of_int, u16]
  split_ifs <;> simp only [] <;> omega

/-! ## C12: a flat history -/

/-- C12: for every `uint16_t` value `V` and every history of at least 2 samples all
equal to `V`, the graph scaling computes `range = max_val - min_val = 100`, so the
divisor of the y-scaling is not zero. -/
theorem flat_history_range_is_100 (app : Scd41App) (V : Nat) (hV : V < 65536)
    (h2 : 2 ≤ app.history_count) (h256 : app.history_count < 256)
    (hall : ∀ i, i < app.history_count → app.co2_history i = V) :
    scd41_draw_range app = 100 ∧ scd41_draw_range app ≠ 0 := by
  obtain ⟨⟨k1, hk1, e1⟩, -, ⟨k2, hk2, e2⟩, -⟩ := minmax_spec app (by omega) h256
  rw [hall k1 hk1] at e1
  rw [hall k2 hk2] at e2
  have hr : scd41_draw_range app = 100 := by
    rw [scd41_draw_range, scd41_draw_bounds, e1, e2]
    exact pad_range_flat V hV
  exact ⟨hr, by rw [hr]; decide⟩

theorem flat_history_range_is_100_witness :
    ((65530 : Nat) < 65536 ∧
      2 ≤ (push_all [⟨65530, 0, 0⟩, ⟨65530, 0, 0⟩, ⟨65530, 0, 0⟩] app_zero).history_count ∧
      (push_all [⟨65530, 0, 0⟩, ⟨65530, 0, 0⟩, ⟨65530, 0, 0⟩] app_zero).history_count < 256 ∧
      (∀ i, i < (push_all [⟨65530, 0, 0⟩, ⟨65530, 0, 0⟩, ⟨65530, 0, 0⟩]
          app_zero).history_count →
        (push_all [⟨65530, 0, 0⟩, ⟨65530, 0, 0⟩, ⟨65530, 0, 0⟩] app_zero).co2_history i
          = 65530)) ∧
    (scd41_draw_range (push_all [⟨65530, 0, 0⟩, ⟨65530, 0, 0⟩, ⟨65530, 0, 0⟩] app_zero) = 100 ∧
      scd41_draw_range (push_all [⟨65530, 0, 0⟩, ⟨65530, 0, 0⟩, ⟨65530, 0, 0⟩] app_zero)
        ≠ 0) :=
  ⟨by decide, flat_history_range_is_100 _ 65530 (by decide) (by decide) (by decide)
    (by decide)⟩

/-! ## C15: the divisors of the plot loop -/

/-- C15: for every history with `history_count >= 2` (a `uint8_t`) and `uint16_t`
samples, the divisor `range` is at least 100 (and a `uint16_t`), and the divisor
`history_count - 1` of the x position is at least 1. -/
theorem plot_divisors_nonzero (app : Scd41App)
    (h2 : 2 ≤ app.history_count) (h256 : app.history_count < 256)
    (hu16 : ∀ i, i < app.history_count → app.co2_history i < 65536) :
    100 ≤ scd41_draw_range app ∧ scd41_draw_range app < 65536 ∧
      1 ≤ (app.history_count : Int) - 1 := by
  obtain ⟨⟨k1, hk1, e1⟩, hmin, ⟨k2, hk2, e2⟩, -⟩ := minmax_spec app (by omega) h256
  have hmM : (scd41_draw_minmax app).1 ≤ (scd41_draw_minmax app).2 := by
    rw [e2]
    exact hmin k2 hk2
  have hM : (scd41_draw_minmax app).2 < 65536 := by
    rw [e2]
    exact hu16 k2 hk2
  have hr := pad_range _ _ hmM hM
  exact ⟨hr.1, hr.2, by omega⟩

theorem plot_divisors_nonzero_witness :
    (2 ≤ (push_all [⟨400, 0, 0⟩, ⟨65535, 0, 0⟩] app_zero).history_count ∧
      (push_all [⟨400, 0, 0⟩, ⟨65535, 0, 0⟩] app_zero).history_count < 256 ∧
      (∀ i, i < (push_all [⟨400, 0, 0⟩, ⟨65535, 0, 0⟩] app_zero).history_count →
        (push_all [⟨400, 0, 0⟩, ⟨65535, 0, 0⟩] app_zero).co2_history i < 65536)) ∧
    (100 ≤ scd41_draw_range (push_all [⟨400, 0, 0⟩, ⟨65535, 0, 0⟩] app_zero) ∧
      scd41_draw_range (push_all [⟨400, 0, 0⟩, ⟨65535, 0, 0⟩] app_zero) < 65536 ∧
      1 ≤ ((push_all [⟨400, 0, 0⟩, ⟨65535, 0, 0⟩] app_zero).history_count : Int) - 1) :=
  ⟨by decide, plot_divisors_nonzero _ (by decide) (by decide) (by decide)⟩

/-! ## C16: the scanned slots are the plotted samples -/

theorem history_inv_of_fields (vs : List Nat) (a b : Scd41App) (h : HistoryInv vs a)
    (hh : b.co2_history = a.co2_history) (hi : b.history_index = a.history_index)
    (hc : b.history_count = a.history_count) : HistoryInv vs b := by
  unfold HistoryInv at h ⊢
  rw [hh, hi, hc]
  exact h

theorem tick_history_inv (hal : Hal σ) (aw : Scd41App × World σ) (vs : List Nat)
    (h : HistoryInv vs aw.1) : ∃ vs', HistoryInv vs' (tick hal aw).1 := by
  by_cases hok : (scd4x_read_measurement hal (some reading_zero) aw.2).1 = Scd4xStatus.Ok
  · refine ⟨vs ++ [((scd4x_read_measurement hal (some reading_zero) aw.2).2.1.getD
      reading_zero).co2_ppm], ?_⟩
    simp only [tick, scd41_app_timer_cb, hok]
    exact history_inv_push vs aw.1 _ h
  · obtain ⟨fh, fi, fc, -⟩ := on_poll_failed_fields _
      ((scd4x_read_measurement hal (some reading_zero) aw.2).2.1.getD reading_zero) aw.1 hok
    exact ⟨vs, history_inv_of_fields vs aw.1 _ h fh fi fc⟩

theorem reachable_history_inv (hal : Hal σ) (app0 : Scd41App) (w : World σ) (k : Nat)
    (h0 : app0.history_index = 0) (hc0 : app0.history_count = 0) :
    ∃ vs, HistoryInv vs ((tick hal)^[k] (app0, w)).1 := by
  induction k with
  | zero => exact ⟨[], by simpa using h0, by simpa using hc0, by simp⟩
  | succ k ih =>
    obtain ⟨vs, hvs⟩ := ih
    rw [Function.iterate_succ_apply']
    exact tick_history_inv hal _ vs hvs

theorem draw_samples_eq (vs : List Nat) (app : Scd41App) (h : HistoryInv vs app) :
    scd41_draw_samples app = vs.drop (vs.length - min vs.length 90) := by
  unfold scd41_draw_samples
  rw [h.2.1, draw_vals_eq vs app h _ 0 (by simp)]
  simp only [Nat.add_zero]
  apply List.take_of_length_le
  simp only [List.length_drop]
  omega

theorem slot_mem_samples (vs : List Nat) (app : Scd41App) (h : HistoryInv vs app)
    (k : Nat) (hk : k < app.history_count) :
    app.co2_history k ∈ scd41_draw_samples app := by
  rw [draw_samples_eq vs app h]
  obtain ⟨-, hc, hs⟩ := h
  rw [hc] at hk
  obtain ⟨p, hp1, hp2, hp3⟩ : ∃ p, vs.length - min vs.length 90 ≤ p ∧ p < vs.length ∧
      p % 90 = k := by
    by_cases hn : vs.length ≤ 90
    · exact ⟨k, by omega, by omega, by omega⟩
    · refine ⟨vs.length - 90 + (k + 90 - (vs.length - 90) % 90) % 90, by omega, by omega, ?_⟩
      omega
  have hval := hs p hp2 (by omega)
  rw [hp3] at hval
  rw [hval, List.getD_eq_getElem?_getD, List.getElem?_eq_getElem hp2, Option.getD_some]
  rw [List.mem_iff_getElem]
  refine ⟨p - (vs.length - min vs.length 90), by simp only [List.length_drop]; omega, ?_⟩
  rw [List.getElem_drop]
  congr 1
  omega

theorem sample_is_slot (vs : List Nat) (app : Scd41App) (h : HistoryInv vs app)
    (v : Nat) (hv : v ∈ scd41_draw_samples app) :
    ∃ k, k < app.history_count ∧ app.co2_history k = v := by
  rw [draw_samples_eq vs app h, List.mem_iff_getElem] at hv
  obtain ⟨j, hj, hjv⟩ := hv
  obtain ⟨-, hc, hs⟩ := h
  simp only [List.length_drop] at hj
  rw [List.getElem_drop] at hjv
  have hp : vs.length - min vs.length 90 + j < vs.length := by omega
  refine ⟨(vs.length - min vs.length 90 + j) % 90, by rw [hc]; omega, ?_⟩
  rw [hs _ hp (by omega), List.getD_eq_getElem?_getD, List.getElem?_eq_getElem hp,
    Option.getD_some]
  exact hjv

theorem minmax_of_inv (vs : List Nat) (app : Scd41App) (h : HistoryInv vs app)
    (hpos : 0 < app.history_count) :
    IsMinOf (scd41_draw_minmax app).1 (scd41_draw_samples app) ∧
      IsMaxOf (scd41_draw_minmax app).2 (scd41_draw_samples app) := by
  have h256 : app.history_count < 256 := by
    rw [h.2.1]
    omega
  obtain ⟨⟨k1, hk1, e1⟩, hmin, ⟨k2, hk2, e2⟩, hmax⟩ := minmax_spec app hpos h256
  refine ⟨⟨?_, ?_⟩, ⟨?_, ?_⟩⟩
  · rw [e1]
    exact slot_mem_samples vs app h k1 hk1
  · intro v hv
    obtain ⟨k, hk, rfl⟩ := sample_is_slot vs app h v hv
    exact hmin k hk
  · rw [e2]
    exact slot_mem_samples vs app h k2 hk2
  · intro v hv
    obtain ⟨k, hk, rfl⟩ := sample_is_slot vs app h v hv
    exact hmax k hk

/-- C16: in every state reached from an initial state with index 0 and count 0 by
timer ticks (on any bus) in which the history is not empty, the minimum and maximum
found by scanning the slots `co2_history[0 .. history_count-1]` are the minimum and
maximum of the plotted sequence, the slots `(start_idx + i) % 90`. -/
theorem scanned_bounds_are_plotted_bounds (hal : Hal σ) (app0 : Scd41App) (w : World σ)
    (k : Nat) (h0 : app0.history_index = 0) (hc0 : app0.history_count = 0)
    (hpos : 0 < ((tick hal)^[k] (app0, w)).1.history_count) :
    IsMinOf (scd41_draw_minmax ((tick hal)^[k] (app0, w)).1).1
        (scd41_draw_samples ((tick hal)^[k] (app0, w)).1) ∧
      IsMaxOf (scd41_draw_minmax ((tick hal)^[k] (app0, w)).1).2
        (scd41_draw_samples ((tick hal)^[k] (app0, w)).1) := by
  obtain ⟨vs, hvs⟩ := reachable_history_inv hal app0 w k h0 hc0
  exact minmax_of_inv vs _ hvs hpos

theorem scanned_bounds_are_plotted_bounds_witness :
    (app_zero.history_index = 0 ∧ app_zero.history_count = 0 ∧
      0 < ((tick script_bus)^[2] (app_zero, spike_world)).1.history_count) ∧
    (IsMinOf (scd41_draw_minmax ((tick script_bus)^[2] (app_zero, spike_world)).1).1
        (scd41_draw_samples ((tick script_bus)^[2] (app_zero, spike_world)).1) ∧
      IsMaxOf (scd41_draw_minmax ((tick script_bus)^[2] (app_zero, spike_world)).1).2
        (scd41_draw_samples ((tick script_bus)^[2] (app_zero, spike_world)).1)) :=
  ⟨by decide, scanned_bounds_are_plotted_bounds script_bus app_zero spike_world 2
    (by decide) (by decide) (by decide)⟩

/-! ## C19: samples against the padded bounds -/

theorem pad_contains (m M v : Nat) (h1 : m ≤ v) (h2 : v ≤ M) (hM : M + 50 < 65536) :
    (scd41_draw_pad m M).1 ≤ v ∧ v ≤ (scd41_draw_pad m M).2 := by
  simp only [scd41_draw_pad, u16_of_int, u16]
  split_ifs <;> simp only [] <;> omega

/-- In a state reached by timer ticks whose samples are all at most 65485 (so that
`max_val += 50` does not wrap), every plotted sample lies between the padded
bounds. -/
theorem samples_within_bounds_without_wrap (hal : Hal σ) (app0 : Scd41App) (w : World σ)
    (k : Nat) (h0 : app0.history_index = 0) (hc0 : app0.history_count = 0)
    (hpos : 0 < ((tick hal)^[k] (app0, w)).1.history_count)
    (hsmall : ∀ v ∈ scd41_draw_samples ((tick hal)^[k] (app0, w)).1, v ≤ 65485)
    (v : Nat) (hv : v ∈ scd41_draw_samples ((tick hal)^[k] (app0, w)).1) :
    (scd41_draw_bounds ((tick hal)^[k] (app0, w)).1).1 ≤ v ∧
      v ≤ (scd41_draw_bounds ((tick hal)^[k] (app0, w)).1).2 := by
  obtain ⟨vs, hvs⟩ := reachable_history_inv hal app0 w k h0 hc0
  obtain ⟨⟨-, hmin⟩, ⟨hmem, hmax⟩⟩ := minmax_of_inv vs _ hvs hpos
  have hM := hsmall _ hmem
  exact pad_contains _ _ v (hmin v hv) (hmax v hv) (by omega)

/-- C19 at a failing input: after two Ok polls with CO2 = 400 and CO2 = 65535 the
history holds 2 samples, the padded bounds are `(350, 450)` because `max_val += 50`
wraps, the plotted sample 65535 exceeds `max_val`, its unclamped `y` is `-25361`,
outside `[22, 61]`, and the clamp changes it to 22. -/
theorem spike_sample_outside_bounds :
    ((tick script_bus)^[2] (app_zero, spike_world)).1.history_count = 2 ∧
      scd41_draw_samples ((tick script_bus)^[2] (app_zero, spike_world)).1 = [400, 65535] ∧
      scd41_draw_bounds ((tick script_bus)^[2] (app_zero, spike_world)).1 = (350, 450) ∧
      ¬ (65535 ≤ (scd41_draw_bounds ((tick script_bus)^[2] (app_zero, spike_world)).1).2) ∧
      scd41_draw_y_raw ((tick script_bus)^[2] (app_zero, spike_world)).1 65535 = -25361 ∧
      scd41_draw_clamp
        (scd41_draw_y_raw ((tick script_bus)^[2] (app_zero, spike_world)).1 65535) = 22 ∧
      scd41_draw_graph ((tick script_bus)^[2] (app_zero, spike_world)).1
        = [(36, 42), (125, 22)] := by
  decide

/-! ## C17: the Fahrenheit text -/

/-- C17 at a failing input: the raw temperature word 10089 is decoded to
`temp_c_x100 = -1806`, the renderer computes `temp_f_x100 = -50` (-0.50 °F, which
truncated to one decimal digit is -0.5), and the text it prints is `0.5F`, without
a sign. -/
theorem frost_text_loses_sign :
    (tick script_bus (app_zero, frost_world)).1.temp_c_x100 = -1806 ∧
      scd41_draw_temp_f_x100 (tick script_bus (app_zero, frost_world)).1
        = Int.tdiv (-1806 * 9) 5 + 3200 ∧
      scd41_draw_temp_f_x100 (tick script_bus (app_zero, frost_world)).1 = -50 ∧
      Int.tdiv (scd41_draw_temp_f_x100 (tick script_bus (app_zero, frost_world)).1) 10 = -5 ∧
      scd41_draw_temp_text (tick script_bus (app_zero, frost_world)).1 = "0.5F" := by
  decide

/-! ## C18: the addresses probed by the scan -/

set_option maxRecDepth 100000 in
/-- C18 at a failing input: on a bus where only the presence probe at the HAL
address `0x62 << 1 = 0xC4` succeeds (the probe `scd4x_start_periodic_measurement`
makes), `scd4x_scan` probes the HAL address `0x62`, never `0xC4`, and reports
`*out_count = 0` with `addrs[0]` left at 0; the application then shows
"I2C: none (no pullups?)". -/
theorem scan_misses_sensor_address :
    SCD4X_ADDR = 0xC4 ∧
      (furi_hal_i2c_is_device_ready probe_bus SCD4X_ADDR 50
        { bus := [0xC4], trace := [] }).1 = true ∧
      (scd4x_scan probe_bus (some (fun _ => 0)) 8 (some 0) { bus := [0xC4], trace := [] }).1
        = Scd4xStatus.Ok ∧
      (scd4x_scan probe_bus (some (fun _ => 0)) 8 (some 0)
        { bus := [0xC4], trace := [] }).2.2.1 = some 0 ∧
      ((scd4x_scan probe_bus (some (fun _ => 0)) 8 (some 0)
        { bus := [0xC4], trace := [] }).2.1.getD (fun _ => 0)) 0 = 0 ∧
      BusEvent.is_device_ready 0x62 20 false ∈
        (scd4x_scan probe_bus (some (fun _ => 0)) 8 (some 0)
          { bus := [0xC4], trace := [] }).2.2.2.trace ∧
      BusEvent.is_device_ready 0xC4 20 true ∉
        (scd4x_scan probe_bus (some (fun _ => 0)) 8 (some 0)
          { bus := [0xC4], trace := [] }).2.2.2.trace ∧
      (scd41_app_start probe_bus app_zero { bus := [0xC4], trace := [] }).1.status
        = "I2C: none (no pullups?)" := by
  decide

end Scd4x
